import Mathlib

/-!
Verification of the PC Network Monitor session protocol engine
(src/shared/protocol.py, src/server/server.py, src/agent/agent.py).

Shallow embedding conventions:
  * JSON values are the inductive `Json` below; Python dicts are ordered
    association lists (insertion order preserved, as CPython guarantees).
  * Numbers in the embedded JSON fragment are integers; timestamps are
    modelled as natural numbers supplied explicitly to each step function.
  * Bytes / text are `List Char` (the source en/decodes UTF-8 text).
  * Raising an exception is modelled as an explicit outcome constructor.
-/

set_option maxRecDepth 10000

/-- JSON value, the unit carried by the NDJSON wire format.  Objects keep
insertion order and may in principle repeat keys; the Python `json.dumps`
of a dict never produces a repeated key. -/
inductive Json where
  | null : Json
  | bool (b : Bool) : Json
  | num (n : Int) : Json
  | str (s : List Char) : Json
  | arr (elems : List Json) : Json
  | obj (members : List (List Char × Json)) : Json

namespace Json

/-- Hex digit character for a value below 16 (lower case, as Python emits). -/
def hexDigit (n : Nat) : Char :=
  if n < 10 then Char.ofNat (48 + n) else Char.ofNat (87 + n)

/-- Escaping of one character inside a JSON string, as `json.dumps` with
`ensure_ascii=False` performs it: the two mandatory escapes, the five
short control escapes, `\u00XX` for the remaining control characters,
and everything else (ASCII and non-ASCII alike) passed through raw. -/
def escChar (c : Char) : List Char :=
  if c = '"' then ['\\', '"']
  else if c = '\\' then ['\\', '\\']
  else if c = '\n' then ['\\', 'n']
  else if c = '\r' then ['\\', 'r']
  else if c = '\t' then ['\\', 't']
  else if c = '\x08' then ['\\', 'b']
  else if c = '\x0c' then ['\\', 'f']
  else if c.toNat < 32 then
    ['\\', 'u', '0', '0', hexDigit (c.toNat / 16), hexDigit (c.toNat % 16)]
  else [c]

/-- Escape a whole string body. -/
def escStr (s : List Char) : List Char :=
  s.flatMap escChar

/-- Serialised JSON string literal: quote, escaped body, quote. -/
def dumpStr (s : List Char) : List Char :=
  '"' :: escStr s ++ ['"']

/-- Decimal digit characters, fuel-bounded so that the definition reduces by
computation alone; any fuel above the number itself is enough. -/
def natCharsAux : Nat → Nat → List Char
  | 0, _ => []
  | fuel + 1, n =>
    if n < 10 then [Char.ofNat (48 + n)]
    else natCharsAux fuel (n / 10) ++ [Char.ofNat (48 + n % 10)]

/-- Decimal digit characters of a natural number (most significant first). -/
def natChars (n : Nat) : List Char :=
  natCharsAux (n + 1) n

/-- Decimal rendering of an integer, as Python prints it inside JSON. -/
def intChars (n : Int) : List Char :=
  if n < 0 then '-' :: natChars n.natAbs else natChars n.natAbs

mutual
/-- `json.dumps(v, ensure_ascii=False)` with the default separators
`", "` and `": "` (the source calls it with no `indent`). -/
def dumps : Json → List Char
  | .null => "null".data
  | .bool true => "true".data
  | .bool false => "false".data
  | .num n => intChars n
  | .str s => dumpStr s
  | .arr [] => ['[', ']']
  | .arr (x :: xs) => '[' :: dumps x ++ dumpsArrTail xs ++ [']']
  | .obj [] => ['\x7b', '\x7d']
  | .obj ((k, v) :: kvs) =>
      '\x7b' :: dumpStr k ++ ':' :: ' ' :: dumps v ++ dumpsObjTail kvs ++ ['\x7d']

/-- Remaining array elements, each introduced by the `", "` separator. -/
def dumpsArrTail : List Json → List Char
  | [] => []
  | x :: xs => ',' :: ' ' :: dumps x ++ dumpsArrTail xs

/-- Remaining object members, each introduced by the `", "` separator. -/
def dumpsObjTail : List (List Char × Json) → List Char
  | [] => []
  | (k, v) :: kvs => ',' :: ' ' :: dumpStr k ++ ':' :: ' ' :: dumps v ++ dumpsObjTail kvs
end

/-- JSON whitespace, as `json.loads` skips it. -/
def isWs (c : Char) : Bool :=
  c = ' ' || c = '\t' || c = '\n' || c = '\r'

/-- Drop leading JSON whitespace. -/
def skipWs : List Char → List Char
  | [] => []
  | c :: rest => if isWs c then skipWs rest else c :: rest

/-- Value of one hex digit, if the character is one. -/
def hexVal (c : Char) : Option Nat :=
  if '0' ≤ c ∧ c ≤ '9' then some (c.toNat - 48)
  else if 'a' ≤ c ∧ c ≤ 'f' then some (c.toNat - 87)
  else if 'A' ≤ c ∧ c ≤ 'F' then some (c.toNat - 55)
  else none

/-- The short escape codes accepted after a backslash in a JSON string. -/
def escCode (e : Char) : Option Char :=
  if e = '"' then some '"'
  else if e = '\\' then some '\\'
  else if e = '/' then some '/'
  else if e = 'b' then some '\x08'
  else if e = 'f' then some '\x0c'
  else if e = 'n' then some '\n'
  else if e = 'r' then some '\r'
  else if e = 't' then some '\t'
  else none

/-- Body of a JSON string literal after the opening quote: unescape until the
closing quote, rejecting raw control characters (strict decoding, as the
Python decoder does). Returns the decoded body and the remaining input. -/
def parseStrBody : List Char → Option (List Char × List Char)
  | [] => none
  | c :: rest =>
    if c = '"' then some ([], rest)
    else if c = '\\' then
      match rest with
      | [] => none
      | e :: rest2 =>
        if e = 'u' then
          match rest2 with
          | h1 :: h2 :: h3 :: h4 :: rest3 =>
            match hexVal h1, hexVal h2, hexVal h3, hexVal h4 with
            | some a, some b, some c2, some d =>
                (parseStrBody rest3).map
                  (fun p => (Char.ofNat (((a * 16 + b) * 16 + c2) * 16 + d) :: p.1, p.2))
            | _, _, _, _ => none
          | _ => none
        else
          match escCode e with
          | some ec => (parseStrBody rest2).map (fun p => (ec :: p.1, p.2))
          | none => none
    else if c.toNat < 32 then none
    else (parseStrBody rest).map (fun p => (c :: p.1, p.2))

/-- Numeric value of a decimal digit character. -/
def digVal (c : Char) : Nat := c.toNat - 48

/-- Consume leading decimal digits, accumulating their value. -/
def readDigits (acc : Nat) : List Char → Nat × List Char
  | [] => (acc, [])
  | c :: rest =>
      if c.isDigit then readDigits (acc * 10 + digVal c) rest else (acc, c :: rest)

/-- After the digits of an integer literal, the input must not continue with a
fraction or exponent: those would make the value a float, which is outside
the integer fragment this embedding models. -/
def numContOk : List Char → Bool
  | [] => true
  | c :: _ => !(c = '.' || c = 'e' || c = 'E')

/-- Parse an integer numeral (optional minus sign, then digits). -/
def parseNum (s : List Char) : Option (Json × List Char) :=
  match s with
  | [] => none
  | c :: rest =>
    if c = '-' then
      match rest with
      | [] => none
      | d :: _ =>
        if d.isDigit then
          let p := readDigits 0 rest
          if numContOk p.2 then some (.num (-(p.1 : Int)), p.2) else none
        else none
    else if c.isDigit then
      let p := readDigits 0 (c :: rest)
      if numContOk p.2 then some (.num (p.1 : Int), p.2) else none
    else none

/-- Input that may legally follow a serialised integer without extending it:
its first character is not a digit and not a fraction/exponent mark. -/
def numStop : List Char → Bool
  | [] => true
  | c :: _ => !c.isDigit && !(c = '.') && !(c = 'e') && !(c = 'E')

/-- Consume an expected literal run of characters. -/
def strip : List Char → List Char → Option (List Char)
  | [], s => some s
  | _ :: _, [] => none
  | p :: ps, c :: cs => if c = p then strip ps cs else none

mutual
/-- Recursive-descent JSON value (fuel-bounded; fuel decreases on every
recursive call, so any fuel above jsize of the value suffices). -/
def parseVal : Nat → List Char → Option (Json × List Char)
  | 0, _ => none
  | fuel + 1, s =>
    match skipWs s with
    | [] => none
    | c :: rest =>
      if c = 'n' then (strip ['u', 'l', 'l'] rest).map (fun r => (Json.null, r))
      else if c = 't' then (strip ['r', 'u', 'e'] rest).map (fun r => (Json.bool true, r))
      else if c = 'f' then (strip ['a', 'l', 's', 'e'] rest).map (fun r => (Json.bool false, r))
      else if c = '"' then (parseStrBody rest).map (fun p => (Json.str p.1, p.2))
      else if c = '[' then
        match skipWs rest with
        | [] => none
        | c2 :: r2 =>
          if c2 = ']' then some (Json.arr [], r2)
          else
            match parseVal fuel (c2 :: r2) with
            | some (x, r3) =>
              match parseArrTail fuel r3 with
              | some (xs, r4) => some (Json.arr (x :: xs), r4)
              | none => none
            | none => none
      else if c = '\x7b' then
        match skipWs rest with
        | [] => none
        | c2 :: r2 =>
          if c2 = '\x7d' then some (Json.obj [], r2)
          else
            match parseMember fuel (c2 :: r2) with
            | some (kv, r3) =>
              match parseObjTail fuel r3 with
              | some (kvs, r4) => some (Json.obj (kv :: kvs), r4)
              | none => none
            | none => none
      else parseNum (c :: rest)

/-- Elements of an array after the first: a comma-led list closed by a
bracket. -/
def parseArrTail : Nat → List Char → Option (List Json × List Char)
  | 0, _ => none
  | fuel + 1, s =>
    match skipWs s with
    | [] => none
    | c :: r =>
      if c = ',' then
        match parseVal fuel r with
        | some (x, r2) =>
          match parseArrTail fuel r2 with
          | some (xs, r3) => some (x :: xs, r3)
          | none => none
        | none => none
      else if c = ']' then some ([], r)
      else none

/-- One object member: a string key, a colon, then a value. -/
def parseMember : Nat → List Char → Option ((List Char × Json) × List Char)
  | 0, _ => none
  | fuel + 1, s =>
    match skipWs s with
    | [] => none
    | c :: r =>
      if c = '"' then
        match parseStrBody r with
        | some (k, r2) =>
          match skipWs r2 with
          | [] => none
          | c2 :: r3 =>
            if c2 = ':' then
              match parseVal fuel r3 with
              | some (v, r4) => some ((k, v), r4)
              | none => none
            else none
        | none => none
      else none

/-- Members of an object after the first: a comma-led list closed by a
brace. -/
def parseObjTail : Nat → List Char → Option (List (List Char × Json) × List Char)
  | 0, _ => none
  | fuel + 1, s =>
    match skipWs s with
    | [] => none
    | c :: r =>
      if c = ',' then
        match parseMember fuel r with
        | some (kv, r2) =>
          match parseObjTail fuel r2 with
          | some (kvs, r3) => some (kv :: kvs, r3)
          | none => none
        | none => none
      else if c = '\x7d' then some ([], r)
      else none
end

/-- `json.loads` on the modelled fragment: parse one value, then require the
remainder to be whitespace only. -/
def loads (line : List Char) : Option Json :=
  match parseVal (line.length + 1) line with
  | some (j, rest) => if rest.all isWs then some j else none
  | none => none

mutual
/-- Structural equality test on JSON values, mirroring Python `==` on the
decoded objects (`None`/bool/int/str/list/dict compare by value). -/
def jeq : Json → Json → Bool
  | .null, .null => true
  | .bool a, .bool b => a = b
  | .num a, .num b => a = b
  | .str a, .str b => a = b
  | .arr a, .arr b => jeqList a b
  | .obj a, .obj b => jeqObj a b
  | _, _ => false

/-- Elementwise equality of JSON arrays. -/
def jeqList : List Json → List Json → Bool
  | [], [] => true
  | a :: as2, b :: bs => jeq a b && jeqList as2 bs
  | _, _ => false

/-- Memberwise equality of JSON objects (same keys in the same order). -/
def jeqObj : List (List Char × Json) → List (List Char × Json) → Bool
  | [], [] => true
  | (k1, v1) :: r1, (k2, v2) :: r2 => (k1 = k2 : Bool) && jeq v1 v2 && jeqObj r1 r2
  | _, _ => false
end

/-- First value stored under a key in an ordered association list (Python
dicts have unique keys, so first match is the match). -/
def assocGet : List (List Char × Json) → List Char → Option Json
  | [], _ => none
  | (k, v) :: rest, key => if k = key then some v else assocGet rest key

/-- `d.get(key)`: `None` (modelled as `Json.null`) when the key is absent or
the value is not a dict. -/
def pyGet (j : Json) (key : List Char) : Json :=
  match j with
  | .obj kvs => (assocGet kvs key).getD .null
  | _ => .null

/-- `d.get(key, default)` on a dict. -/
def pyGetD (j : Json) (key : List Char) (d : Json) : Json :=
  match j with
  | .obj kvs => (assocGet kvs key).getD d
  | _ => d

/-- Does this JSON value equal (as Python `==`) the given Python string? -/
def jIsStr (j : Json) (s : List Char) : Bool :=
  match j with
  | .str t => t = s
  | _ => false

/-- Python truthiness of a decoded JSON value (`if x:`). -/
def pyTruthy : Json → Bool
  | .null => false
  | .bool b => b
  | .num n => n ≠ 0
  | .str s => !s.isEmpty
  | .arr xs => !xs.isEmpty
  | .obj kvs => !kvs.isEmpty

/-- Whether the value may be used as a Python dict key (lists and dicts are
unhashable; using one as a key raises `TypeError`). -/
def isHashable : Json → Bool
  | .arr _ => false
  | .obj _ => false
  | _ => true

/-- Is the value a dict? Attribute access like `.get` on a non-dict raises
`AttributeError`. -/
def isObj : Json → Bool
  | .obj _ => true
  | _ => false

/-- Python `repr` of a decoded JSON value (single-quoted strings; containers
recursively). Used only through `pyStr` in f-string interpolation. -/
def reprEsc (c : Char) : List Char :=
  if c = '\\' then ['\\', '\\']
  else if c = Char.ofNat 39 then ['\\', Char.ofNat 39]
  else if c = '\n' then ['\\', 'n']
  else if c = '\r' then ['\\', 'r']
  else if c = '\t' then ['\\', 't']
  else if c.toNat < 32 then ['\\', 'x', hexDigit (c.toNat / 16), hexDigit (c.toNat % 16)]
  else [c]

mutual
/-- Python `repr` of a decoded JSON value. -/
def pyRepr : Json → List Char
  | .null => ['N', 'o', 'n', 'e']
  | .bool true => ['T', 'r', 'u', 'e']
  | .bool false => ['F', 'a', 'l', 's', 'e']
  | .num n => intChars n
  | .str s => Char.ofNat 39 :: s.flatMap reprEsc ++ [Char.ofNat 39]
  | .arr [] => ['[', ']']
  | .arr (x :: xs) => '[' :: pyRepr x ++ pyReprArrTail xs ++ [']']
  | .obj [] => ['\x7b', '\x7d']
  | .obj ((k, v) :: kvs) =>
      '\x7b' :: pyRepr (.str k) ++ ':' :: ' ' :: pyRepr v ++ pyReprObjTail kvs ++ ['\x7d']

/-- Remaining list elements in a Python repr. -/
def pyReprArrTail : List Json → List Char
  | [] => []
  | x :: xs => ',' :: ' ' :: pyRepr x ++ pyReprArrTail xs

/-- Remaining dict members in a Python repr. -/
def pyReprObjTail : List (List Char × Json) → List Char
  | [] => []
  | (k, v) :: kvs =>
      ',' :: ' ' :: pyRepr (.str k) ++ ':' :: ' ' :: pyRepr v ++ pyReprObjTail kvs
end

/-- Python `str()` of a decoded JSON value, as an f-string interpolates it:
a string passes through bare, everything else via `repr`. -/
def pyStr (j : Json) : List Char :=
  match j with
  | .str s => s
  | _ => pyRepr j

mutual
/-- Fuel needed by `parseVal` to parse this value. -/
def jsize : Json → Nat
  | .null | .bool _ | .num _ | .str _ => 1
  | .arr [] => 1
  | .arr (x :: xs) => 1 + max (jsize x) (tsize xs)
  | .obj [] => 1
  | .obj (kv :: kvs) => 1 + max (1 + jsize kv.2) (otsize kvs)

/-- Fuel needed by `parseArrTail` for the remaining elements. -/
def tsize : List Json → Nat
  | [] => 1
  | x :: xs => 1 + max (jsize x) (tsize xs)

/-- Fuel needed by `parseObjTail` for the remaining members. -/
def otsize : List (List Char × Json) → Nat
  | [] => 1
  | kv :: kvs => 1 + max (1 + jsize kv.2) (otsize kvs)
end

end Json

namespace protocol

/-- `protocol.dumps`: encode a message to an NDJSON frame, i.e. the JSON text
followed by the newline delimiter (src/shared/protocol.py, `dumps`). -/
def dumps (obj : Json) : List Char :=
  Json.dumps obj ++ ['\n']

/-- `protocol.loads`: decode one NDJSON line back to a value
(src/shared/protocol.py, `loads`). -/
def loads (line : List Char) : Option Json :=
  Json.loads line

/-- `PROTOCOL_VERSION = "1.0"`. -/
def PROTOCOL_VERSION : List Char := ['1', '.', '0']

/-- The `Message` dataclass of src/shared/protocol.py: type, payload,
optional request id, version (defaulting to the protocol version). -/
structure Message where
  type : List Char
  payload : Json
  request_id : Option (List Char) := none
  version : List Char := PROTOCOL_VERSION

/-- `Message.to_dict`: the wire dict `v`/`type`/`payload`, with
`request_id` appended only when present. -/
def Message.to_dict (m : Message) : Json :=
  match m.request_id with
  | none =>
      .obj [(['v'], .str m.version), (['t', 'y', 'p', 'e'], .str m.type),
            (['p', 'a', 'y', 'l', 'o', 'a', 'd'], m.payload)]
  | some rid =>
      .obj [(['v'], .str m.version), (['t', 'y', 'p', 'e'], .str m.type),
            (['p', 'a', 'y', 'l', 'o', 'a', 'd'], m.payload),
            ("request_id".data, .str rid)]

end protocol

namespace server

/-- `ClientState` (src/server/server.py): one registry entry per connected
agent.  `writer` is an identity token for the owning connection's
transport; `last_seen` a timestamp. -/
structure ClientState where
  client_id : Json
  name : Json
  addr : List Char × Nat
  writer : Nat
  last_seen : Nat
  last_metrics : Json

/-- One stored pending response: `{client_id, payload, t}`. -/
structure PendingResponse where
  client_id : Json
  payload : Json
  t : Nat

/-- Python dict lookup on an insertion-ordered association list. -/
def dget {α : Type} : List (Json × α) → Json → Option α
  | [], _ => none
  | (k, v) :: rest, key => if Json.jeq k key then some v else dget rest key

/-- Python dict assignment: replace in place (keeping the key's original
position) when present, append otherwise. -/
def dset {α : Type} : List (Json × α) → Json → α → List (Json × α)
  | [], key, v => [(key, v)]
  | (k, v2) :: rest, key, v =>
      if Json.jeq k key then (k, v) :: rest else (k, v2) :: dset rest key v

/-- Python `dict.pop(key, None)`: drop the entry when present. -/
def dpop {α : Type} : List (Json × α) → Json → List (Json × α)
  | [], _ => []
  | (k, v) :: rest, key => if Json.jeq k key then rest else (k, v) :: dpop rest key

/-- How many entries an association list holds under a key (a well-formed
dict holds at most one). -/
def countKey {α : Type} (m : List (Json × α)) (k : Json) : Nat :=
  (m.filter (fun p => Json.jeq p.1 k)).length

/-- The mutable state of a `MonitorServer`: the configured shared token, the
client registry, the pending-response map, whether an `on_response`
observer is registered, and the log of observer invocations
`(client_id, request_id, payload)` made so far. -/
structure ServerState where
  auth_token : List Char
  clients : List (Json × ClientState)
  last_responses : List (Json × PendingResponse)
  hasObserver : Bool
  obsCalls : List (Json × Json × Json)

/-- Outcome of the handshake on a new connection. -/
inductive FirstOutcome where
  | errorClose (reason : List Char)
  | exn
  | accepted (cid : Json)

/-- The `AwaitingAuth` phase of `MonitorServer.handle_client` on the first
decoded frame: version/type gate, token gate, `client_id` gate, then
registration.  Returns the new state, the handler's `client_id` local
variable (used later by the cleanup), and the outcome.  `exn` marks the
paths where the Python code raises (`.get` on a non-dict, or an
unhashable registry key) and falls to the top-level handler. -/
def handle_first (st : ServerState) (peer : List Char × Nat) (wid : Nat) (now : Nat)
    (msg : Json) : ServerState × Option Json × FirstOutcome :=
  match msg with
  | .obj _ =>
    if !(Json.jIsStr (Json.pyGet msg ['v']) protocol.PROTOCOL_VERSION)
        || !(Json.jIsStr (Json.pyGet msg "type".data) "auth".data) then
      (st, none, .errorClose "expected auth".data)
    else
      let pl := Json.pyGetD msg "payload".data (.obj [])
      match pl with
      | .obj _ =>
        let token := Json.pyGetD pl "token".data (.str [])
        if !(Json.jeq token (.str st.auth_token)) then
          (st, none, .errorClose "bad token".data)
        else
          let cid := Json.pyGetD pl "client_id".data (.str [])
          let name := Json.pyGetD pl "name".data (.str "unknown".data)
          if !(Json.pyTruthy cid) then
            (st, some cid, .errorClose "missing client_id".data)
          else if !(Json.isHashable cid) then (st, some cid, .exn)
          else
            ({ st with clients := dset st.clients cid ⟨cid, name, peer, wid, now, .obj []⟩ },
             some cid, .accepted cid)
      | _ => (st, none, .exn)
  | _ => (st, none, .exn)

/-- Append one observer invocation when an observer is registered
(`if self.on_response: await self.on_response(...)`; callback exceptions
are swallowed, so the invocation always counts once). -/
def notifyObserver (st : ServerState) (cid rid payload : Json) : ServerState :=
  if st.hasObserver then { st with obsCalls := st.obsCalls ++ [(cid, rid, payload)] }
  else st

/-- One iteration of the `Active` loop of `MonitorServer.handle_client` on an
already decoded frame: refresh `last_seen`, then dispatch on `type`
(`metrics` overwrites `last_metrics` wholesale; `response` stores a
pending record when `request_id` is truthy and notifies the observer;
`heartbeat` and unknown types fall through).  The Bool is whether the
loop continues; `false` models an exception ending it (`.get` on a
non-dict frame, or an unhashable `request_id` as a dict key). -/
def active_msg (st : ServerState) (cid : Json) (now : Nat) (msg : Json) :
    ServerState × Bool :=
  match msg with
  | .obj _ =>
    let st1 :=
      match dget st.clients cid with
      | some c => { st with clients := dset st.clients cid { c with last_seen := now } }
      | none => st
    let payload := Json.pyGetD msg "payload".data (.obj [])
    if Json.jIsStr (Json.pyGet msg "type".data) "metrics".data then
      match dget st1.clients cid with
      | some c =>
          ({ st1 with clients := dset st1.clients cid { c with last_metrics := payload } }, true)
      | none => (st1, true)
    else if Json.jIsStr (Json.pyGet msg "type".data) "response".data then
      let rid := Json.pyGet msg "request_id".data
      if Json.pyTruthy rid then
        if Json.isHashable rid then
          let st2 := { st1 with last_responses := dset st1.last_responses rid ⟨cid, payload, now⟩ }
          (notifyObserver st2 cid rid payload, true)
        else (st1, false)
      else (notifyObserver st1 cid rid payload, true)
    else (st1, true)
  | _ => (st, false)

/-- One iteration of the `Active` loop on a raw inbound line: `loads` is
called inside the handler's single `try`, so a decode failure raises and
ends the loop (`false`). -/
def active_line (st : ServerState) (cid : Json) (now : Nat) (line : List Char) :
    ServerState × Bool :=
  match protocol.loads line with
  | none => (st, false)
  | some msg => active_msg st cid now msg

/-- Run the `Active` loop over a list of timestamped decoded frames,
stopping early when an iteration raises. -/
def runActiveMsgs (st : ServerState) (cid : Json) : List (Nat × Json) → ServerState
  | [] => st
  | (t, m) :: rest =>
      let p := active_msg st cid t m
      if p.2 then runActiveMsgs p.1 cid rest else p.1

/-- The `finally` cleanup of `handle_client`:
`if client_id and client_id in self.clients: self.clients.pop(client_id, None)`.
The pop happens whenever the (truthy) id is still present — with no check
of which connection the entry belongs to. -/
def cleanup (clients : List (Json × ClientState)) (client_id : Option Json) :
    List (Json × ClientState) :=
  match client_id with
  | none => clients
  | some cid =>
      if Json.pyTruthy cid && (dget clients cid).isSome then dpop clients cid else clients

/-- `MonitorServer.send_request`: look up the client; absent → raise
`ValueError("client not found")` (returned to the caller); present →
write exactly one `request` frame on that client's connection and return
without reading a reply.  The success value is the target connection's
writer identity together with the single frame written. -/
def send_request (st : ServerState) (client_id req_type request_id : List Char)
    (payload : Json) : Except (List Char) (Nat × Json) :=
  match dget st.clients (.str client_id) with
  | none => .error "client not found".data
  | some client =>
      .ok (client.writer,
        .obj [(['v'], .str protocol.PROTOCOL_VERSION),
              ("type".data, .str "request".data),
              ("request_id".data, .str request_id),
              ("payload".data, .obj [("req_type".data, .str req_type),
                                     ("data".data, payload)])])

/-- `f"{ip}:{port}"` for a peer address. -/
def addrFormat (a : List Char × Nat) : List Char :=
  a.1 ++ ':' :: Json.natChars a.2

/-- `MonitorServer.list_clients`: one row per registry entry, in the dict's
iteration (insertion) order: id, name, formatted address, age since
`last_seen` (numeric seconds; the `0.1f` float formatting is abstracted),
and the `last_metrics` value. -/
def list_clients (st : ServerState) (now : Nat) :
    List (Json × Json × List Char × Nat × Json) :=
  st.clients.map (fun p =>
    (p.1, p.2.name, addrFormat p.2.addr, now - p.2.last_seen, p.2.last_metrics))

/-- A frame whose `Active`-loop iteration completes without raising: it is a
dict, and if it is a `response` its truthy `request_id` is hashable. -/
def frameOk (m : Json) : Bool :=
  Json.isObj m &&
    (!(Json.jIsStr (Json.pyGet m "type".data) "response".data)
      || !(Json.pyTruthy (Json.pyGet m "request_id".data))
      || Json.isHashable (Json.pyGet m "request_id".data))

/-- The payload of the most recent `metrics` frame in a message run, or the
given initial value when the run holds none. -/
def lastMetricsSpec (d : Json) : List (Nat × Json) → Json
  | [] => d
  | (_, m) :: rest =>
      if Json.jIsStr (Json.pyGet m "type".data) "metrics".data then
        lastMetricsSpec (Json.pyGetD m "payload".data (.obj [])) rest
      else lastMetricsSpec d rest

/-- Are the rows of a `list_clients` result ordered most-recently-seen
first, i.e. ages since last contact nondecreasing? -/
def agesNondecreasing : List (Json × Json × List Char × Nat × Json) → Bool
  | [] => true
  | [_] => true
  | r1 :: r2 :: rest =>
      r1.2.2.2.1 ≤ r2.2.2.2.1 && agesNondecreasing (r2 :: rest)

/-- The reverse ordering (most-recently-seen last), to rule out the other
reading of "ordered by recency". -/
def agesNonincreasing : List (Json × Json × List Char × Nat × Json) → Bool
  | [] => true
  | [_] => true
  | r1 :: r2 :: rest =>
      r2.2.2.2.1 ≤ r1.2.2.2.1 && agesNonincreasing (r2 :: rest)

end server

namespace agent

/-- Reconnect backoff constants of src/agent/agent.py, in tenths of a second
so the arithmetic stays exact: `RECONNECT_BASE_S = 0.5` ↦ 5,
`RECONNECT_MAX_S = 15.0` ↦ 150. -/
def RECONNECT_BASE_S : Nat := 5

/-- Cap of the reconnect backoff (15 s, in tenths). -/
def RECONNECT_MAX_S : Nat := 150

/-- How one `run_agent_once` call ends, as observed by `run_agent_forever`:
connection or authentication failure raise before `Active`; a session
that reached `Active` either returns normally (its receive loop broke on
EOF or a swallowed write failure) or re-raises the exception of a failed
duty. -/
inductive TrialOutcome where
  | connectFail
  | authFail
  | activeClean
  | activeError

/-- Does `run_agent_once` raise for this outcome? -/
def trialRaises : TrialOutcome → Bool
  | .activeClean => false
  | _ => true

/-- Did the session reach `Active`? -/
def reachedActive : TrialOutcome → Bool
  | .activeClean => true
  | .activeError => true
  | _ => false

/-- One turn of the `run_agent_forever` loop: the delay slept after this
trial and the backoff carried into the next one.  No exception → reset
to base, sleep base; exception → sleep the current backoff, then double
it up to the cap. -/
def backoffStep (b : Nat) (o : TrialOutcome) : Nat × Nat :=
  if trialRaises o then (b, min RECONNECT_MAX_S (b * 2))
  else (RECONNECT_BASE_S, RECONNECT_BASE_S)

/-- The sequence of sleeps `run_agent_forever` performs across a run of
trials, starting from backoff `b`. -/
def reconnectDelays (b : Nat) : List TrialOutcome → List Nat
  | [] => []
  | o :: os =>
      let p := backoffStep b o
      p.1 :: reconnectDelays p.2 os

/-- The external collaborator payloads an agent serves requests from
(sysinfo/metrics/process/connection providers are out of core scope). -/
structure Providers where
  sysinfo : Json
  metrics : Json
  processes : Json
  netstat : Json

/-- `_pack_response`: the response frame dict (note `request_id` is always
included, even when the inbound request had none). -/
def pack_response (rid : Json) (payload : Json) : Json :=
  .obj [(['v'], .str protocol.PROTOCOL_VERSION),
        ("type".data, .str "response".data),
        ("request_id".data, rid),
        ("payload".data, payload)]

/-- What `_recv_loop` does with one inbound line. -/
inductive RecvAction where
  | skip
  | reply (frame : Json)
  | exn

/-- Dispatch of `_recv_loop` on an already decoded message: non-`request`
types are skipped; a `request` is answered by the matching provider, an
unknown `req_type` by an `error` payload naming it.  `exn` models the
`AttributeError` the Python code raises when the decoded frame (or a
truthy `payload`) is not a dict. -/
def recv_msg (pv : Providers) (msg : Json) : RecvAction :=
  match msg with
  | .obj _ =>
    if !(Json.jIsStr (Json.pyGet msg "type".data) "request".data) then .skip
    else
      let rid := Json.pyGet msg "request_id".data
      let pl0 := Json.pyGet msg "payload".data
      let pl := if Json.pyTruthy pl0 then pl0 else .obj []
      match pl with
      | .obj _ =>
        let rt := Json.pyGet pl "req_type".data
        if Json.jeq rt (.str "sysinfo".data) then
          .reply (pack_response rid (.obj [("sysinfo".data, pv.sysinfo),
                                           ("metrics".data, pv.metrics)]))
        else if Json.jeq rt (.str "processes".data) then
          .reply (pack_response rid (.obj [("processes".data, pv.processes)]))
        else if Json.jeq rt (.str "netstat".data) then
          .reply (pack_response rid (.obj [("connections".data, pv.netstat)]))
        else
          .reply (pack_response rid
            (.obj [("error".data, .str ("unknown req_type: ".data ++ Json.pyStr rt))]))
      | _ => .exn
  | _ => .exn

/-- One iteration of `_recv_loop` on a raw line: only the `loads` call is
inside the `try/except`, so a decode failure is dropped and the loop
continues with the next line. -/
def recv_line (pv : Providers) (line : List Char) : RecvAction :=
  match protocol.loads line with
  | none => .skip
  | some msg => recv_msg pv msg

/-- `_pack_auth`: the single auth frame an agent sends, with the shared
token, its identity, and a sysinfo descriptor from the provider. -/
def pack_auth (auth_token client_id name : List Char) (sysinfo : Json) : Json :=
  .obj [(['v'], .str protocol.PROTOCOL_VERSION),
        ("type".data, .str "auth".data),
        ("payload".data, .obj [("token".data, .str auth_token),
                               ("client_id".data, .str client_id),
                               ("name".data, .str name),
                               ("sysinfo".data, sysinfo)])]

end agent

namespace Json

/-- Mutual structural induction over JSON values and the element and member
lists nested inside them. -/
theorem recAll (P : Json → Prop) (Q : List Json → Prop)
    (R : List (List Char × Json) → Prop)
    (hnull : P .null) (hbool : ∀ b, P (.bool b)) (hnum : ∀ n, P (.num n))
    (hstr : ∀ s, P (.str s))
    (harr : ∀ xs, Q xs → P (.arr xs)) (hobj : ∀ kvs, R kvs → P (.obj kvs))
    (hqnil : Q []) (hqcons : ∀ x xs, P x → Q xs → Q (x :: xs))
    (hrnil : R []) (hrcons : ∀ k v kvs, P v → R kvs → R ((k, v) :: kvs)) :
    (∀ j, P j) ∧ (∀ xs, Q xs) ∧ (∀ kvs, R kvs) := by
  have key : ∀ n : Nat, (∀ j : Json, sizeOf j ≤ n → P j) ∧
      (∀ xs : List Json, sizeOf xs ≤ n → Q xs) ∧
      (∀ kvs : List (List Char × Json), sizeOf kvs ≤ n → R kvs) := by
    intro n
    induction n using Nat.strong_induction_on with
    | _ n ih =>
      refine ⟨?_, ?_, ?_⟩
      · intro j hj
        cases j with
        | null => exact hnull
        | bool b => exact hbool b
        | num m => exact hnum m
        | str s => exact hstr s
        | arr xs =>
            have hs : sizeOf xs < n := by simp at hj; omega
            exact harr xs ((ih (sizeOf xs) hs).2.1 xs le_rfl)
        | obj kvs =>
            have hs : sizeOf kvs < n := by simp at hj; omega
            exact hobj kvs ((ih (sizeOf kvs) hs).2.2 kvs le_rfl)
      · intro xs hxs
        cases xs with
        | nil => exact hqnil
        | cons x rest =>
            have h1 : sizeOf x < n := by simp at hxs; omega
            have h2 : sizeOf rest < n := by simp at hxs; omega
            exact hqcons x rest ((ih (sizeOf x) h1).1 x le_rfl)
              ((ih (sizeOf rest) h2).2.1 rest le_rfl)
      · intro kvs hkvs
        cases kvs with
        | nil => exact hrnil
        | cons kv rest =>
            obtain ⟨k, v⟩ := kv
            have h1 : sizeOf v < n := by simp at hkvs; omega
            have h2 : sizeOf rest < n := by simp at hkvs; omega
            exact hrcons k v rest ((ih (sizeOf v) h1).1 v le_rfl)
              ((ih (sizeOf rest) h2).2.2 rest le_rfl)
  exact ⟨fun j => (key (sizeOf j)).1 j le_rfl,
         fun xs => (key (sizeOf xs)).2.1 xs le_rfl,
         fun kvs => (key (sizeOf kvs)).2.2 kvs le_rfl⟩

/-- `jeq` is reflexive. -/
theorem jeq_refl : ∀ j : Json, jeq j j = true := by
  have h := recAll (fun j => jeq j j = true) (fun xs => jeqList xs xs = true)
    (fun kvs => jeqObj kvs kvs = true)
    (by simp [jeq]) (by intro b; simp [jeq]) (by intro n; simp [jeq])
    (by intro s; simp [jeq])
    (by intro xs hq; simpa [jeq] using hq)
    (by intro kvs hr; simpa [jeq] using hr)
    (by simp [jeqList])
    (by intro x xs hp hq; simp [jeqList, hp, hq])
    (by simp [jeqObj])
    (by intro k v kvs hp hr; simp [jeqObj, hp, hr])
  exact h.1

/-- `jeq` is sound: equal test means equal values. -/
theorem jeq_eq : ∀ a b : Json, jeq a b = true → a = b := by
  have h := recAll (fun a => ∀ b, jeq a b = true → a = b)
    (fun xs => ∀ ys, jeqList xs ys = true → xs = ys)
    (fun kvs => ∀ lvs, jeqObj kvs lvs = true → kvs = lvs)
    (by intro b; cases b <;> simp [jeq])
    (by intro x b; cases b <;> simp [jeq])
    (by intro n b; cases b <;> simp [jeq])
    (by intro s b; cases b <;> simp [jeq])
    (by
      intro xs hq b
      cases b <;> simp [jeq]
      intro hl
      exact hq _ hl)
    (by
      intro kvs hr b
      cases b <;> simp [jeq]
      intro hl
      exact hr _ hl)
    (by intro ys; cases ys <;> simp [jeqList])
    (by
      intro x xs hp hq ys
      cases ys with
      | nil => simp [jeqList]
      | cons y yt =>
          simp only [jeqList, Bool.and_eq_true]
          rintro ⟨h1, h2⟩
          exact by rw [hp y h1, hq yt h2])
    (by intro lvs; cases lvs <;> simp [jeqObj])
    (by
      intro k v kvs hp hr lvs
      cases lvs with
      | nil => simp [jeqObj]
      | cons lv lt =>
          obtain ⟨k2, v2⟩ := lv
          simp only [jeqObj, Bool.and_eq_true, decide_eq_true_eq]
          rintro ⟨⟨hk, hv⟩, ht⟩
          rw [hk, hp v2 hv, hr lt ht])
  exact h.1

/-- `jeq` decides equality. -/
theorem jeq_iff (a b : Json) : jeq a b = true ↔ a = b :=
  ⟨jeq_eq a b, fun h => h ▸ jeq_refl a⟩

end Json

namespace Json

/-- `strip` consumes exactly the expected run. -/
theorem strip_append (pat rest : List Char) : strip pat (pat ++ rest) = some rest := by
  induction pat with
  | nil => rfl
  | cons p ps ih => simp [strip, ih]

/-- `skipWs` is the identity on input with a non-whitespace head. -/
theorem skipWs_cons (c : Char) (t : List Char) (h : isWs c = false) :
    skipWs (c :: t) = c :: t := by
  simp [skipWs, h]

/-- `skipWs` is idempotent. -/
theorem skipWs_idem (s : List Char) : skipWs (skipWs s) = skipWs s := by
  induction s with
  | nil => rfl
  | cons c t ih =>
      by_cases h : isWs c
      · simpa [skipWs, h] using ih
      · simp [skipWs, h]

/-- `parseVal` begins by skipping whitespace, so pre-skipping is harmless. -/
theorem parseVal_skipWs (f : Nat) (s : List Char) :
    parseVal f (skipWs s) = parseVal f s := by
  cases f with
  | zero => rfl
  | succ f => simp only [parseVal, skipWs_idem]

/-- Each hex digit character maps back to its value. -/
theorem hexVal_hexDigit : ∀ k, k < 16 → hexVal (hexDigit k) = some k := by decide

/-- Unescaping inverts escaping on a whole string body. -/
theorem parseStrBody_escStr (s rest : List Char) :
    parseStrBody (escStr s ++ '"' :: rest) = some (s, rest) := by
  induction s with
  | nil =>
      rw [show escStr [] ++ '"' :: rest = '"' :: rest by simp [escStr]]
      rw [parseStrBody.eq_def]
      simp
  | cons c t ih =>
      have hesc : escStr (c :: t) = escChar c ++ escStr t := by simp [escStr]
      rw [hesc, List.append_assoc]
      generalize hX : escStr t ++ '"' :: rest = X at ih ⊢
      by_cases h1 : c = '"'
      · subst h1
        show parseStrBody ('\\' :: '"' :: X) = _
        rw [parseStrBody.eq_def]
        simp [escCode, ih]
      · by_cases h2 : c = '\\'
        · subst h2
          show parseStrBody ('\\' :: '\\' :: X) = _
          rw [parseStrBody.eq_def]
          simp [escCode, ih]
        · by_cases h3 : c = '\n'
          · subst h3
            show parseStrBody ('\\' :: 'n' :: X) = _
            rw [parseStrBody.eq_def]
            simp [escCode, ih]
          · by_cases h4 : c = '\r'
            · subst h4
              show parseStrBody ('\\' :: 'r' :: X) = _
              rw [parseStrBody.eq_def]
              simp [escCode, ih]
            · by_cases h5 : c = '\t'
              · subst h5
                show parseStrBody ('\\' :: 't' :: X) = _
                rw [parseStrBody.eq_def]
                simp [escCode, ih]
              · by_cases h6 : c = '\x08'
                · subst h6
                  show parseStrBody ('\\' :: 'b' :: X) = _
                  rw [parseStrBody.eq_def]
                  simp [escCode, ih]
                · by_cases h7 : c = '\x0c'
                  · subst h7
                    show parseStrBody ('\\' :: 'f' :: X) = _
                    rw [parseStrBody.eq_def]
                    simp [escCode, ih]
                  · by_cases h8 : c.toNat < 32
                    · have hec : escChar c =
                          ['\\', 'u', '0', '0', hexDigit (c.toNat / 16),
                           hexDigit (c.toNat % 16)] := by
                        simp [escChar, h1, h2, h3, h4, h5, h6, h7, h8]
                      rw [hec]
                      simp only [List.cons_append, List.nil_append]
                      rw [parseStrBody.eq_def]
                      simp [hexVal_hexDigit (c.toNat / 16) (by omega),
                        hexVal_hexDigit (c.toNat % 16) (by omega),
                        show hexVal '0' = some 0 from rfl, ih]
                      rw [show c.toNat / 16 * 16 + c.toNat % 16 = c.toNat by omega,
                        Char.ofNat_toNat]
                    · have hec : escChar c = [c] := by
                        simp [escChar, h1, h2, h3, h4, h5, h6, h7, h8]
                      rw [hec]
                      simp only [List.cons_append, List.nil_append]
                      rw [parseStrBody.eq_def]
                      simp [h1, h2, h8, ih]

/-- All characters `natCharsAux` emits are decimal digits (given fuel). -/
theorem natCharsAux_digits : ∀ fuel n, n < fuel →
    (natCharsAux fuel n).all Char.isDigit = true := by
  intro fuel
  induction fuel with
  | zero => intro n h; omega
  | succ f ih =>
      intro n _
      by_cases h10 : n < 10
      · have : (Char.ofNat (48 + n)).isDigit = true := by
          have hb : ∀ m, m < 10 → (Char.ofNat (48 + m)).isDigit = true := by decide
          exact hb n h10
        simp [natCharsAux, h10, this]
      · have hdiv : n / 10 < f := by
          have h2 : n / 10 < n := Nat.div_lt_self (by omega) (by omega)
          omega
        have hd : (Char.ofNat (48 + n % 10)).isDigit = true := by
          have hb : ∀ m, m < 10 → (Char.ofNat (48 + m)).isDigit = true := by decide
          exact hb (n % 10) (Nat.mod_lt _ (by omega))
        simp [natCharsAux, h10, List.all_append, ih (n / 10) hdiv, hd]

/-- `natCharsAux` never returns the empty list (given fuel). -/
theorem natCharsAux_ne : ∀ fuel n, n < fuel → natCharsAux fuel n ≠ [] := by
  intro fuel
  induction fuel with
  | zero => intro n h; omega
  | succ f _ =>
      intro n _
      by_cases h10 : n < 10 <;> simp [natCharsAux, h10]

/-- Folding the digit-accumulation step over the emitted digits recovers the
number. -/
theorem natCharsAux_fold : ∀ fuel n, n < fuel →
    (natCharsAux fuel n).foldl (fun a c => a * 10 + digVal c) 0 = n := by
  intro fuel
  induction fuel with
  | zero => intro n h; omega
  | succ f ih =>
      intro n hn
      by_cases h10 : n < 10
      · have hdv : digVal (Char.ofNat (48 + n)) = n := by
          have hb : ∀ m, m < 10 → digVal (Char.ofNat (48 + m)) = m := by decide
          exact hb n h10
        simp [natCharsAux, h10, hdv]
      · have hdiv : n / 10 < f := by
          have h2 : n / 10 < n := Nat.div_lt_self (by omega) (by omega)
          omega
        have hdv : digVal (Char.ofNat (48 + n % 10)) = n % 10 := by
          have hb : ∀ m, m < 10 → digVal (Char.ofNat (48 + m)) = m := by decide
          exact hb (n % 10) (Nat.mod_lt _ (by omega))
        simp [natCharsAux, h10, List.foldl_append, ih (n / 10) hdiv, hdv]
        omega

/-- `readDigits` consumes exactly a run of digits when what follows starts
with a non-digit. -/
theorem readDigits_append : ∀ (ds : List Char) (acc : Nat) (rest : List Char),
    ds.all Char.isDigit = true → numStop rest = true →
    readDigits acc (ds ++ rest) =
      (ds.foldl (fun a c => a * 10 + digVal c) acc, rest) := by
  intro ds
  induction ds with
  | nil =>
      intro acc rest _ hrest
      cases rest with
      | nil => rfl
      | cons c t =>
          have : c.isDigit = false := by
            simp [numStop] at hrest
            exact hrest.1.1.1
          simp [readDigits, this]
  | cons d dt ih =>
      intro acc rest hall hrest
      simp only [List.all_cons, Bool.and_eq_true] at hall
      simp [readDigits, hall.1, ih _ _ hall.2 hrest]

/-- The serialised decimal of an integer parses back to it. -/
theorem parseNum_intChars (n : Int) (rest : List Char) (h : numStop rest = true) :
    parseNum (intChars n ++ rest) = some (.num n, rest) := by
  have hne := natCharsAux_ne (n.natAbs + 1) n.natAbs (by omega)
  have hall := natCharsAux_digits (n.natAbs + 1) n.natAbs (by omega)
  have hfold := natCharsAux_fold (n.natAbs + 1) n.natAbs (by omega)
  obtain ⟨d, dt, hdEq⟩ : ∃ d dt, natChars n.natAbs = d :: dt := by
    cases hcc : natChars n.natAbs with
    | nil => exact absurd hcc hne
    | cons d dt => exact ⟨d, dt, rfl⟩
  rw [natChars] at hdEq
  have hdDig : d.isDigit = true := by
    rw [hdEq] at hall
    simp only [List.all_cons, Bool.and_eq_true] at hall
    exact hall.1
  have hdm : d ≠ '-' := by
    intro hcon
    rw [hcon] at hdDig
    exact absurd hdDig (by decide)
  have hrd : readDigits 0 (natCharsAux (n.natAbs + 1) n.natAbs ++ rest)
      = (n.natAbs, rest) := by
    rw [readDigits_append _ _ _ hall h, hfold]
  have hcont : numContOk rest = true := by
    cases rest with
    | nil => rfl
    | cons c t =>
        simp [numStop] at h
        simp [numContOk, h.1.1.2, h.1.2, h.2]
  by_cases hneg : n < 0
  · have hi : intChars n = '-' :: natCharsAux (n.natAbs + 1) n.natAbs := by
      simp [intChars, hneg, natChars]
    rw [hi]
    rw [List.cons_append, hdEq, List.cons_append]
    have hstep : parseNum ('-' :: d :: (dt ++ rest)) =
        (if d.isDigit then
          (let p := readDigits 0 (d :: (dt ++ rest))
           if numContOk p.2 then some (.num (-(p.1 : Int)), p.2) else none)
         else none) := by
      simp [parseNum]
    rw [hstep, if_pos hdDig]
    rw [show d :: (dt ++ rest) = (d :: dt) ++ rest from rfl, ← hdEq, hrd]
    simp only [hcont, if_pos]
    have : -(n.natAbs : Int) = n := by omega
    rw [this]
  · have hi : intChars n = natCharsAux (n.natAbs + 1) n.natAbs := by
      simp [intChars, hneg, natChars]
    rw [hi, hdEq, List.cons_append]
    have hstep : parseNum (d :: (dt ++ rest)) =
        (if d = '-' then
          (match dt ++ rest with
           | [] => none
           | d2 :: _ =>
             if d2.isDigit then
               let p := readDigits 0 (dt ++ rest)
               if numContOk p.2 then some (.num (-(p.1 : Int)), p.2) else none
             else none)
         else if d.isDigit then
           let p := readDigits 0 (d :: (dt ++ rest))
           if numContOk p.2 then some (.num (p.1 : Int), p.2) else none
         else none) := by
      simp [parseNum]
    rw [hstep, if_neg hdm, if_pos hdDig]
    rw [show d :: (dt ++ rest) = (d :: dt) ++ rest from rfl, ← hdEq, hrd]
    simp only [hcont, if_pos]
    have : ((n.natAbs : Int)) = n := by omega
    rw [this]

end Json


namespace Json

/-- A digit never equals a character that is itself not a digit. -/
theorem digit_ne (c x : Char) (h : c.isDigit = true) (hx : x.isDigit = false) :
    (c = x) = False := by
  simp only [eq_iff_iff, iff_false]
  intro he
  subst he
  simp [h] at hx

/-- A decimal digit character is not JSON whitespace. -/
theorem digit_not_ws (c : Char) (h : c.isDigit = true) : isWs c = false := by
  cases hw : isWs c
  · rfl
  · simp [isWs] at hw
    rcases hw with ((hw | hw) | hw) | hw <;> (subst hw; exact absurd h (by decide))

/-- The serialised form of an integer starts with a digit or a minus sign;
either way the head is no whitespace, bracket, brace, or keyword
dispatch character. -/
theorem intChars_cons (n : Int) : ∃ c t, intChars n = c :: t ∧
    (c = 'n') = False ∧ (c = 't') = False ∧ (c = 'f') = False ∧ (c = '"') = False ∧
    (c = '[') = False ∧ (c = '\x7b') = False ∧ isWs c = false ∧
    (c = ']') = False ∧ (c = '\x7d') = False := by
  have hne := natCharsAux_ne (n.natAbs + 1) n.natAbs (by omega)
  have hall := natCharsAux_digits (n.natAbs + 1) n.natAbs (by omega)
  obtain ⟨d, dt, hd⟩ : ∃ d dt, natCharsAux (n.natAbs + 1) n.natAbs = d :: dt := by
    cases hcc : natCharsAux (n.natAbs + 1) n.natAbs with
    | nil => exact absurd hcc hne
    | cons d dt => exact ⟨d, dt, rfl⟩
  have hdDig : d.isDigit = true := by
    rw [hd] at hall
    simp only [List.all_cons, Bool.and_eq_true] at hall
    exact hall.1
  by_cases hneg : n < 0
  · have hm : (('-' = 'n') = False) ∧ (('-' = 't') = False) ∧ (('-' = 'f') = False) ∧
        (('-' = '"') = False) ∧ (('-' = '[') = False) ∧ (('-' = '\x7b') = False) ∧
        (isWs '-' = false) ∧ (('-' = ']') = False) ∧ (('-' = '\x7d') = False) := by
      decide
    obtain ⟨m1, m2, m3, m4, m5, m6, m7, m8, m9⟩ := hm
    refine ⟨'-', natCharsAux (n.natAbs + 1) n.natAbs, ?_, m1, m2, m3, m4, m5, m6, m7, m8, m9⟩
    simp [intChars, hneg, natChars]
  · refine ⟨d, dt, ?_, digit_ne d _ hdDig (by decide), digit_ne d _ hdDig (by decide),
      digit_ne d _ hdDig (by decide), digit_ne d _ hdDig (by decide),
      digit_ne d _ hdDig (by decide), digit_ne d _ hdDig (by decide),
      digit_not_ws d hdDig, digit_ne d _ hdDig (by decide), digit_ne d _ hdDig (by decide)⟩
    simp [intChars, hneg, natChars, hd]

/-- Every serialised JSON value starts with a character that is neither
whitespace nor a closing bracket or brace. -/
theorem dumps_cons (j : Json) : ∃ c t, dumps j = c :: t ∧
    isWs c = false ∧ (c = ']') = False ∧ (c = '\x7d') = False := by
  cases j with
  | null =>
      exact ⟨'n', ['u', 'l', 'l'], by simp [dumps], by decide, by decide, by decide⟩
  | bool b =>
      cases b with
      | true =>
          exact ⟨'t', ['r', 'u', 'e'], by simp [dumps], by decide, by decide, by decide⟩
      | false =>
          exact ⟨'f', ['a', 'l', 's', 'e'], by simp [dumps], by decide, by decide, by decide⟩
  | num n =>
      obtain ⟨c, t, hct, _, _, _, _, _, _, h7, h8, h9⟩ := intChars_cons n
      exact ⟨c, t, by simp [dumps, hct], h7, h8, h9⟩
  | str s =>
      exact ⟨'"', escStr s ++ ['"'], by simp [dumps, dumpStr], by decide, by decide, by decide⟩
  | arr xs =>
      cases xs with
      | nil => exact ⟨'[', [']'], by simp [dumps], by decide, by decide, by decide⟩
      | cons x xt =>
          exact ⟨'[', dumps x ++ (dumpsArrTail xt ++ [']']), by simp [dumps],
            by decide, by decide, by decide⟩
  | obj kvs =>
      cases kvs with
      | nil => exact ⟨'\x7b', ['\x7d'], by simp [dumps], by decide, by decide, by decide⟩
      | cons kv kvt =>
          obtain ⟨k, v⟩ := kv
          exact ⟨'\x7b', dumpStr k ++ ':' :: ' ' :: (dumps v ++ (dumpsObjTail kvt ++ ['\x7d'])),
            by simp [dumps], by decide, by decide, by decide⟩

/-- Array-tail output (followed by the closing bracket) never starts with a
digit or number-continuation character. -/
theorem numStop_dumpsArrTail (xs : List Json) (rest : List Char) :
    numStop (dumpsArrTail xs ++ ']' :: rest) = true := by
  cases xs with
  | nil => simp [dumpsArrTail, numStop]
  | cons x xt => simp [dumpsArrTail, numStop]

/-- Object-tail output (followed by the closing brace) never starts with a
digit or number-continuation character. -/
theorem numStop_dumpsObjTail (kvs : List (List Char × Json)) (rest : List Char) :
    numStop (dumpsObjTail kvs ++ '\x7d' :: rest) = true := by
  cases kvs with
  | nil => simp [dumpsObjTail, numStop]
  | cons kv kvt =>
      obtain ⟨k, v⟩ := kv
      simp [dumpsObjTail, numStop]

/-- Leading whitespace is transparent to `parseVal`. -/
theorem parseVal_cons_ws (f : Nat) (c : Char) (s : List Char) (h : isWs c = true) :
    parseVal f (c :: s) = parseVal f s := by
  rw [← parseVal_skipWs f (c :: s), ← parseVal_skipWs f s]
  simp [skipWs, h]

/-- `jsize` is positive. -/
theorem jsize_pos (j : Json) : 1 ≤ jsize j := by
  cases j with
  | null => simp [jsize]
  | bool b => simp [jsize]
  | num n => simp [jsize]
  | str s => simp [jsize]
  | arr xs => cases xs <;> simp [jsize]
  | obj kvs =>
      cases kvs with
      | nil => simp [jsize]
      | cons kv kvt => obtain ⟨k, v⟩ := kv; simp [jsize]

/-- `tsize` is positive. -/
theorem tsize_pos (xs : List Json) : 1 ≤ tsize xs := by
  cases xs <;> simp [tsize]

/-- `otsize` is positive. -/
theorem otsize_pos (kvs : List (List Char × Json)) : 1 ≤ otsize kvs := by
  cases kvs with
  | nil => simp [otsize]
  | cons kv kvt => obtain ⟨k, v⟩ := kv; simp [otsize]

/-- The parsing fuel a value needs is bounded by the length of its
serialised form plus one. -/
theorem jsize_le_dumps :
    (∀ j : Json, jsize j ≤ (dumps j).length + 1) ∧
    (∀ xs : List Json, tsize xs ≤ (dumpsArrTail xs).length + 1) ∧
    (∀ kvs : List (List Char × Json), otsize kvs ≤ (dumpsObjTail kvs).length + 1) := by
  refine recAll (fun j => jsize j ≤ (dumps j).length + 1)
    (fun xs => tsize xs ≤ (dumpsArrTail xs).length + 1)
    (fun kvs => otsize kvs ≤ (dumpsObjTail kvs).length + 1)
    (by simp [jsize, dumps]) (by intro b; cases b <;> simp [jsize, dumps])
    (by intro n; simp [jsize]) (by intro s; simp [jsize, dumps, dumpStr])
    ?_ ?_ (by simp [tsize, dumpsArrTail]) ?_ (by simp [otsize, dumpsObjTail]) ?_
  · intro xs hq
    cases xs with
    | nil => simp [jsize, dumps]
    | cons x xt =>
        have hts : jsize (Json.arr (x :: xt)) = tsize (x :: xt) := by
          simp [jsize, tsize]
        rw [hts]
        calc tsize (x :: xt) ≤ (dumpsArrTail (x :: xt)).length + 1 := hq
          _ ≤ (dumps (Json.arr (x :: xt))).length + 1 := by
              simp [dumps, dumpsArrTail]
              omega
  · intro kvs hr
    cases kvs with
    | nil => simp [jsize, dumps]
    | cons kv kvt =>
        obtain ⟨k, v⟩ := kv
        have hts : jsize (Json.obj ((k, v) :: kvt)) = otsize ((k, v) :: kvt) := by
          simp [jsize, otsize]
        rw [hts]
        calc otsize ((k, v) :: kvt) ≤ (dumpsObjTail ((k, v) :: kvt)).length + 1 := hr
          _ ≤ (dumps (Json.obj ((k, v) :: kvt))).length + 1 := by
              simp [dumps, dumpsObjTail]
              omega
  · intro x xs hp hq
    simp only [tsize, dumpsArrTail, List.length_cons, List.length_append]
    omega
  · intro k v kvs hp hr
    simp only [otsize, dumpsObjTail, List.length_cons, List.length_append]
    omega

end Json

namespace Json

/-- `parseMember` begins by skipping whitespace, so pre-skipping is
harmless. -/
theorem parseMember_skipWs (f : Nat) (s : List Char) :
    parseMember f (skipWs s) = parseMember f s := by
  cases f with
  | zero => rw [parseMember.eq_def, parseMember.eq_def]
  | succ f =>
      rw [parseMember.eq_def, parseMember.eq_def]
      simp only [skipWs_idem]

/-- Leading whitespace is transparent to `parseMember`. -/
theorem parseMember_cons_ws (f : Nat) (c : Char) (s : List Char) (h : isWs c = true) :
    parseMember f (c :: s) = parseMember f s := by
  rw [← parseMember_skipWs f (c :: s), ← parseMember_skipWs f s]
  simp [skipWs, h]

/-- The recursive-descent parser inverts the serialiser, given enough fuel:
values, array tails, members, and object tails all parse back to exactly
what was serialised, leaving the rest of the input untouched. -/
theorem parse_dumps : ∀ fuel : Nat,
    (∀ (j : Json) (rest : List Char), jsize j ≤ fuel → numStop rest = true →
      parseVal fuel (dumps j ++ rest) = some (j, rest)) ∧
    (∀ (xs : List Json) (rest : List Char), tsize xs ≤ fuel →
      parseArrTail fuel (dumpsArrTail xs ++ ']' :: rest) = some (xs, rest)) ∧
    (∀ (k : List Char) (v : Json) (rest : List Char), 1 + jsize v ≤ fuel →
      numStop rest = true →
      parseMember fuel (dumpStr k ++ ':' :: ' ' :: (dumps v ++ rest)) = some ((k, v), rest)) ∧
    (∀ (kvs : List (List Char × Json)) (rest : List Char), otsize kvs ≤ fuel →
      parseObjTail fuel (dumpsObjTail kvs ++ '\x7d' :: rest) = some (kvs, rest)) := by
  intro fuel
  induction fuel with
  | zero =>
      refine ⟨?_, ?_, ?_, ?_⟩
      · intro j rest hsz _; have := jsize_pos j; omega
      · intro xs rest hsz; have := tsize_pos xs; omega
      · intro k v rest hsz _; have := jsize_pos v; omega
      · intro kvs rest hsz; have := otsize_pos kvs; omega
  | succ f ih =>
      obtain ⟨ihV, ihA, ihM, ihO⟩ := ih
      refine ⟨?_, ?_, ?_, ?_⟩
      · intro j rest hsz hstop
        cases j with
        | null =>
            rw [show dumps Json.null ++ rest = 'n' :: 'u' :: 'l' :: 'l' :: rest by
              simp [dumps]]
            rw [parseVal.eq_def]
            simp [skipWs, isWs, strip]
        | bool b =>
            cases b with
            | true =>
                rw [show dumps (Json.bool true) ++ rest = 't' :: 'r' :: 'u' :: 'e' :: rest by
                  simp [dumps]]
                rw [parseVal.eq_def]
                simp [skipWs, isWs, strip]
            | false =>
                rw [show dumps (Json.bool false) ++ rest
                    = 'f' :: 'a' :: 'l' :: 's' :: 'e' :: rest by simp [dumps]]
                rw [parseVal.eq_def]
                simp [skipWs, isWs, strip]
        | num n =>
            obtain ⟨c, t, hct, e1, e2, e3, e4, e5, e6, hws, _, _⟩ := intChars_cons n
            rw [show dumps (Json.num n) ++ rest = c :: (t ++ rest) by simp [dumps, hct]]
            rw [parseVal.eq_def]
            simp only [skipWs, hws, Bool.false_eq_true, if_false, e1, e2, e3, e4, e5, e6,
              if_false]
            rw [show c :: (t ++ rest) = intChars n ++ rest by simp [hct]]
            exact parseNum_intChars n rest hstop
        | str s =>
            rw [show dumps (Json.str s) ++ rest = '"' :: (escStr s ++ '"' :: rest) by
              simp [dumps, dumpStr]]
            rw [parseVal.eq_def]
            simp [skipWs, isWs, parseStrBody_escStr]
        | arr xs =>
            cases xs with
            | nil =>
                rw [show dumps (Json.arr []) ++ rest = '[' :: ']' :: rest by simp [dumps]]
                rw [parseVal.eq_def]
                simp [skipWs, isWs]
            | cons x xt =>
                obtain ⟨cx, tx, hcx, hxw, hxrb, _⟩ := dumps_cons x
                have hszx : jsize x ≤ f ∧ tsize xt ≤ f := by
                  simp only [jsize] at hsz
                  have h1 := Nat.le_max_left (jsize x) (tsize xt)
                  have h2 := Nat.le_max_right (jsize x) (tsize xt)
                  omega
                have hx := ihV x (dumpsArrTail xt ++ ']' :: rest) hszx.1
                  (numStop_dumpsArrTail xt rest)
                have ha := ihA xt rest hszx.2
                rw [show dumps (Json.arr (x :: xt)) ++ rest
                    = '[' :: (dumps x ++ (dumpsArrTail xt ++ ']' :: rest)) by
                  simp [dumps]]
                rw [parseVal.eq_def]
                rw [hcx] at hx ⊢
                simp only [isWs, Bool.or_eq_false_iff, decide_eq_false_iff_not] at hxw
                simp only [List.cons_append] at hx
                simp [skipWs, isWs, hxw.1.1.1, hxw.1.1.2, hxw.1.2, hxw.2, hxrb, hx, ha]
        | obj kvs =>
            cases kvs with
            | nil =>
                rw [show dumps (Json.obj []) ++ rest = '\x7b' :: '\x7d' :: rest by
                  simp [dumps]]
                rw [parseVal.eq_def]
                simp [skipWs, isWs]
            | cons kv kvt =>
                obtain ⟨k, v⟩ := kv
                have hszv : 1 + jsize v ≤ f ∧ otsize kvt ≤ f := by
                  simp only [jsize] at hsz
                  have h1 := Nat.le_max_left (1 + jsize v) (otsize kvt)
                  have h2 := Nat.le_max_right (1 + jsize v) (otsize kvt)
                  omega
                have hm := ihM k v (dumpsObjTail kvt ++ '\x7d' :: rest) hszv.1
                  (numStop_dumpsObjTail kvt rest)
                have ho := ihO kvt rest hszv.2
                rw [show dumps (Json.obj ((k, v) :: kvt)) ++ rest
                    = '\x7b' :: (dumpStr k ++ ':' :: ' ' ::
                        (dumps v ++ (dumpsObjTail kvt ++ '\x7d' :: rest))) by
                  simp [dumps]]
                rw [parseVal.eq_def]
                rw [show dumpStr k ++ ':' :: ' ' ::
                    (dumps v ++ (dumpsObjTail kvt ++ '\x7d' :: rest))
                    = '"' :: (escStr k ++ ('"' :: (':' :: ' ' ::
                        (dumps v ++ (dumpsObjTail kvt ++ '\x7d' :: rest))))) by
                  simp [dumpStr]]
                simp only [skipWs] at hm ⊢
                rw [show dumpStr k ++ ':' :: ' ' ::
                    (dumps v ++ (dumpsObjTail kvt ++ '\x7d' :: rest))
                    = '"' :: (escStr k ++ ('"' :: (':' :: ' ' ::
                        (dumps v ++ (dumpsObjTail kvt ++ '\x7d' :: rest))))) by
                  simp [dumpStr]] at hm
                simp [skipWs, isWs, hm, ho]
      · intro xs rest hsz
        cases xs with
        | nil =>
            rw [show dumpsArrTail [] ++ ']' :: rest = ']' :: rest by simp [dumpsArrTail]]
            rw [parseArrTail.eq_def]
            simp [skipWs, isWs]
        | cons x xt =>
            have hszx : jsize x ≤ f ∧ tsize xt ≤ f := by
              simp only [tsize] at hsz
              have h1 := Nat.le_max_left (jsize x) (tsize xt)
              have h2 := Nat.le_max_right (jsize x) (tsize xt)
              omega
            have hx := ihV x (dumpsArrTail xt ++ ']' :: rest) hszx.1
              (numStop_dumpsArrTail xt rest)
            have ha := ihA xt rest hszx.2
            rw [show dumpsArrTail (x :: xt) ++ ']' :: rest
                = ',' :: ' ' :: (dumps x ++ (dumpsArrTail xt ++ ']' :: rest)) by
              simp [dumpsArrTail]]
            rw [parseArrTail.eq_def]
            have hws : parseVal f (' ' :: (dumps x ++ (dumpsArrTail xt ++ ']' :: rest)))
                = parseVal f (dumps x ++ (dumpsArrTail xt ++ ']' :: rest)) :=
              parseVal_cons_ws f ' ' _ (by decide)
            simp [skipWs, isWs, hws, hx, ha]
      · intro k v rest hsz hstop
        have hszv : jsize v ≤ f := by omega
        have hv := ihV v rest hszv hstop
        rw [show dumpStr k ++ ':' :: ' ' :: (dumps v ++ rest)
            = '"' :: (escStr k ++ ('"' :: (':' :: ' ' :: (dumps v ++ rest)))) by
          simp [dumpStr]]
        rw [parseMember.eq_def]
        have hws : parseVal f (' ' :: (dumps v ++ rest)) = parseVal f (dumps v ++ rest) :=
          parseVal_cons_ws f ' ' _ (by decide)
        simp [skipWs, isWs, parseStrBody_escStr, hws, hv]
      · intro kvs rest hsz
        cases kvs with
        | nil =>
            rw [show dumpsObjTail [] ++ '\x7d' :: rest = '\x7d' :: rest by
              simp [dumpsObjTail]]
            rw [parseObjTail.eq_def]
            simp [skipWs, isWs]
        | cons kv kvt =>
            obtain ⟨k, v⟩ := kv
            have hszv : 1 + jsize v ≤ f ∧ otsize kvt ≤ f := by
              simp only [otsize] at hsz
              have h1 := Nat.le_max_left (1 + jsize v) (otsize kvt)
              have h2 := Nat.le_max_right (1 + jsize v) (otsize kvt)
              omega
            have hm := ihM k v (dumpsObjTail kvt ++ '\x7d' :: rest) hszv.1
              (numStop_dumpsObjTail kvt rest)
            have ho := ihO kvt rest hszv.2
            rw [show dumpsObjTail ((k, v) :: kvt) ++ '\x7d' :: rest
                = ',' :: ' ' :: (dumpStr k ++ ':' :: ' ' ::
                    (dumps v ++ (dumpsObjTail kvt ++ '\x7d' :: rest))) by
              simp [dumpsObjTail]]
            rw [parseObjTail.eq_def]
            have hwsm : parseMember f (' ' :: (dumpStr k ++ ':' :: ' ' ::
                (dumps v ++ (dumpsObjTail kvt ++ '\x7d' :: rest))))
                = parseMember f (dumpStr k ++ ':' :: ' ' ::
                    (dumps v ++ (dumpsObjTail kvt ++ '\x7d' :: rest))) :=
              parseMember_cons_ws f ' ' _ (by decide)
            simp [skipWs, isWs, hwsm, hm, ho]

end Json

namespace Json

/-- Escaping never emits a raw newline (the delimiter): the newline itself
is escaped, and every other control character becomes `\u00XX`. -/
theorem escChar_no_newline (c : Char) : '\n' ∉ escChar c := by
  by_cases h1 : c = '"'
  · simp [escChar, h1]
  · by_cases h2 : c = '\\'
    · simp [escChar, h1, h2]
    · by_cases h3 : c = '\n'
      · simp [escChar, h1, h2, h3]
      · by_cases h4 : c = '\r'
        · simp [escChar, h1, h2, h3, h4]
        · by_cases h5 : c = '\t'
          · simp [escChar, h1, h2, h3, h4, h5]
          · by_cases h6 : c = '\x08'
            · simp [escChar, h1, h2, h3, h4, h5, h6]
            · by_cases h7 : c = '\x0c'
              · simp [escChar, h1, h2, h3, h4, h5, h6, h7]
              · by_cases h8 : c.toNat < 32
                · have hhex : ∀ k, k < 16 → ¬hexDigit k = '\n' := by decide
                  simp [escChar, h1, h2, h3, h4, h5, h6, h7, h8]
                  exact ⟨fun h => hhex _ (by omega) h.symm,
                    fun h => hhex _ (by omega) h.symm⟩
                · simp only [escChar, h1, h2, h3, h4, h5, h6, h7, h8, if_false,
                    List.mem_singleton]
                  intro he
                  rw [← he] at h8
                  exact h8 (by decide)

/-- A serialised string literal contains no newline. -/
theorem dumpStr_no_newline (s : List Char) : '\n' ∉ dumpStr s := by
  have hesc : '\n' ∉ escStr s := by
    simp only [escStr, List.mem_flatMap]
    rintro ⟨c, _, hc⟩
    exact escChar_no_newline c hc
  simp [dumpStr, hesc]

/-- A serialised integer contains no newline. -/
theorem intChars_no_newline (n : Int) : '\n' ∉ intChars n := by
  have hall := natCharsAux_digits (n.natAbs + 1) n.natAbs (by omega)
  have hdig : '\n' ∉ natCharsAux (n.natAbs + 1) n.natAbs := by
    intro hmem
    simp only [List.all_eq_true] at hall
    have := hall _ hmem
    exact absurd this (by decide)
  by_cases hneg : n < 0
  · simp only [intChars, if_pos hneg, natChars, List.mem_cons]
    rintro (h | h)
    · exact absurd h (by decide)
    · exact hdig h
  · simp only [intChars, if_neg hneg, natChars]
    exact hdig

/-- No serialised JSON value (nor any array/object tail) contains the
newline delimiter: structured text encoding keeps the frame delimiter
out of the encoded payload. -/
theorem dumps_no_newline :
    (∀ j : Json, '\n' ∉ dumps j) ∧
    (∀ xs : List Json, '\n' ∉ dumpsArrTail xs) ∧
    (∀ kvs : List (List Char × Json), '\n' ∉ dumpsObjTail kvs) := by
  refine recAll (fun j => '\n' ∉ dumps j) (fun xs => '\n' ∉ dumpsArrTail xs)
    (fun kvs => '\n' ∉ dumpsObjTail kvs)
    (by simp [dumps]) (by intro b; cases b <;> simp [dumps])
    (by intro n; simpa [dumps] using intChars_no_newline n)
    (by intro s; simpa [dumps] using dumpStr_no_newline s)
    ?_ ?_ (by simp [dumpsArrTail]) ?_ (by simp [dumpsObjTail]) ?_
  · intro xs hq
    cases xs with
    | nil => simp [dumps]
    | cons x xt =>
        have hx : '\n' ∉ dumps x := fun h => hq (by simp [dumpsArrTail, h])
        have ht : '\n' ∉ dumpsArrTail xt := fun h => hq (by simp [dumpsArrTail, h])
        simp [dumps, hx, ht]
  · intro kvs hr
    cases kvs with
    | nil => simp [dumps]
    | cons kv kvt =>
        obtain ⟨k, v⟩ := kv
        have hv : '\n' ∉ dumps v := fun h => hr (by simp [dumpsObjTail, h])
        have ht : '\n' ∉ dumpsObjTail kvt := fun h => hr (by simp [dumpsObjTail, h])
        simp [dumps, hv, ht, dumpStr_no_newline k]
  · intro x xs hp hq
    simp [dumpsArrTail, hp, hq]
  · intro k v kvs hp hr
    simp [dumpsObjTail, hp, hr, dumpStr_no_newline k]

end Json

namespace Json

/-- Round trip of the JSON codec itself: parsing a serialised value followed
by the newline delimiter recovers the value. -/
theorem loads_dumps (j : Json) : loads (dumps j ++ ['\n']) = some j := by
  have hfuel : jsize j ≤ (dumps j ++ ['\n']).length + 1 := by
    have h := jsize_le_dumps.1 j
    simp only [List.length_append, List.length_cons, List.length_nil]
    omega
  have hp := (parse_dumps ((dumps j ++ ['\n']).length + 1)).1 j ['\n'] hfuel (by decide)
  simp only [List.length_append, List.length_cons, List.length_nil, Nat.zero_add] at hp
  simp [loads, hp, isWs]

end Json

/-- Round trip of the protocol frame codec (`protocol.loads` inverts
`protocol.dumps`), for every JSON value. -/
theorem protocol_loads_dumps (j : Json) : protocol.loads (protocol.dumps j) = some j :=
  Json.loads_dumps j

/-- Claim C6: for every message of the seven message types (a structured
value with version, type, payload, and optional request id), decoding the
encoded frame returns the original value: `loads (dumps m) = m`; the
frame is one line ending in the newline delimiter, and the delimiter
never occurs inside the encoded JSON text. -/
theorem C6_roundtrip (m : protocol.Message) :
    protocol.loads (protocol.dumps m.to_dict) = some m.to_dict ∧
    (protocol.dumps m.to_dict).getLast? = some '\n' ∧
    '\n' ∉ Json.dumps m.to_dict :=
  ⟨protocol_loads_dumps m.to_dict,
   by simp [protocol.dumps],
   (Json.dumps_no_newline).1 m.to_dict⟩

namespace server

/-- Looking up the key just assigned returns the assigned value. -/
theorem dget_dset_self {α : Type} (m : List (Json × α)) (k : Json) (v : α) :
    dget (dset m k v) k = some v := by
  induction m with
  | nil => simp [dset, dget, Json.jeq_refl]
  | cons p rest ih =>
      obtain ⟨k2, v2⟩ := p
      cases h : Json.jeq k2 k with
      | true => simp [dset, dget, h]
      | false => simp [dset, dget, h, ih]

/-- Assignment to one key leaves lookups of any other key unchanged. -/
theorem dget_dset_ne {α : Type} (m : List (Json × α)) (k k2 : Json) (v : α)
    (hne : k2 ≠ k) : dget (dset m k v) k2 = dget m k2 := by
  induction m with
  | nil =>
      have : Json.jeq k k2 = false := by
        cases hc : Json.jeq k k2 with
        | true => exact absurd (Json.jeq_eq _ _ hc).symm hne
        | false => rfl
      simp [dset, dget, this]
  | cons p rest ih =>
      obtain ⟨kh, vh⟩ := p
      cases h : Json.jeq kh k with
      | true =>
          have hk : kh = k := Json.jeq_eq _ _ h
          have : Json.jeq kh k2 = false := by
            cases hc : Json.jeq kh k2 with
            | true => exact absurd ((Json.jeq_eq _ _ hc) ▸ hk.symm).symm hne
            | false => rfl
          simp [dset, dget, h, this]
      | false => simp [dset, dget, h, ih]

/-- Assigning an absent key appends the new entry at the end (insertion
order of a Python dict). -/
theorem dset_absent {α : Type} (m : List (Json × α)) (k : Json) (v : α)
    (h : dget m k = none) : dset m k v = m ++ [(k, v)] := by
  induction m with
  | nil => simp [dset]
  | cons p rest ih =>
      obtain ⟨kh, vh⟩ := p
      cases hc : Json.jeq kh k with
      | true => simp [dget, hc] at h
      | false =>
          simp only [dget, hc, Bool.false_eq_true, if_false] at h
          simp [dset, hc, ih h]

/-- Lookup walks past a run of entries that does not hold the key. -/
theorem dget_append_none {α : Type} (m l : List (Json × α)) (k : Json)
    (h : dget m k = none) : dget (m ++ l) k = dget l k := by
  induction m with
  | nil => simp
  | cons p rest ih =>
      obtain ⟨kh, vh⟩ := p
      cases hc : Json.jeq kh k with
      | true => simp [dget, hc] at h
      | false =>
          simp only [dget, hc, Bool.false_eq_true, if_false] at h
          simp [dget, hc, ih h]

/-- Assignment to a key held by the final entry replaces that entry. -/
theorem dset_replace_end {α : Type} (m : List (Json × α)) (k : Json) (v1 v2 : α)
    (h : dget m k = none) : dset (m ++ [(k, v1)]) k v2 = m ++ [(k, v2)] := by
  induction m with
  | nil => simp [dset, Json.jeq_refl]
  | cons p rest ih =>
      obtain ⟨kh, vh⟩ := p
      cases hc : Json.jeq kh k with
      | true => simp [dget, hc] at h
      | false =>
          simp only [dget, hc, Bool.false_eq_true, if_false] at h
          simp [dset, hc, ih h]

/-- Popping the key held by the final entry removes exactly that entry. -/
theorem dpop_append_end {α : Type} (m : List (Json × α)) (k : Json) (v : α)
    (h : dget m k = none) : dpop (m ++ [(k, v)]) k = m := by
  induction m with
  | nil => simp [dpop, Json.jeq_refl]
  | cons p rest ih =>
      obtain ⟨kh, vh⟩ := p
      cases hc : Json.jeq kh k with
      | true => simp [dget, hc] at h
      | false =>
          simp only [dget, hc, Bool.false_eq_true, if_false] at h
          simp [dpop, hc, ih h]

/-- Absent keys are counted zero times. -/
theorem countKey_none {α : Type} (m : List (Json × α)) (k : Json)
    (h : dget m k = none) : countKey m k = 0 := by
  induction m with
  | nil => simp [countKey]
  | cons p rest ih =>
      obtain ⟨kh, vh⟩ := p
      cases hc : Json.jeq kh k with
      | true => simp [dget, hc] at h
      | false =>
          simp only [dget, hc, Bool.false_eq_true, if_false] at h
          simpa [countKey, hc] using ih h

/-- Counting distributes over concatenation. -/
theorem countKey_append {α : Type} (m l : List (Json × α)) (k : Json) :
    countKey (m ++ l) k = countKey m k + countKey l k := by
  simp [countKey, List.filter_append]

end server

namespace server

/-- A first frame built by the agent's `_pack_auth` with the server's own
token and a nonempty `client_id` passes the auth gate: the server
registers a fresh `ClientState` under that id (replacing any previous
entry) and accepts. -/
theorem handle_first_auth_ok (st : ServerState) (peer : List Char × Nat)
    (wid now : Nat) (cid name : List Char) (sys : Json) (tok : List Char)
    (hcid : cid ≠ []) (htok : tok = st.auth_token) :
    handle_first st peer wid now (agent.pack_auth tok cid name sys)
      = (ServerState.mk st.auth_token
           (dset st.clients (Json.str cid)
             (ClientState.mk (Json.str cid) (Json.str name) peer wid now (Json.obj [])))
           st.last_responses st.hasObserver st.obsCalls,
         some (Json.str cid), .accepted (Json.str cid)) := by
  subst htok
  simp +decide [handle_first, agent.pack_auth, Json.pyGet, Json.pyGetD, Json.assocGet,
    Json.jIsStr, Json.pyTruthy, Json.isHashable, Json.jeq, protocol.PROTOCOL_VERSION, hcid]

end server

/-- Claim C1 (amended): two sequential authenticated connections with the
same `client_id` leave exactly one registry entry — the second
connection's `ClientState` (its writer) replaces the first — but the
subsequent closure of the first, superseded connection REMOVES that
entry: the `finally` cleanup pops the `ClientState` whenever the
client id is still registered, with no check of which connection the
entry refers to. -/
theorem C1_amended_identity_replace
    (st st1 st2 : server.ServerState) (cv1 cv2 : Option Json)
    (o1 o2 : server.FirstOutcome)
    (peer1 peer2 : List Char × Nat) (wid1 wid2 t1 t2 : Nat)
    (cid name1 name2 : List Char) (sys1 sys2 : Json)
    (hcid : cid ≠ [])
    (habs : server.dget st.clients (Json.str cid) = none)
    (hr1 : server.handle_first st peer1 wid1 t1
      (agent.pack_auth st.auth_token cid name1 sys1) = (st1, cv1, o1))
    (hr2 : server.handle_first st1 peer2 wid2 t2
      (agent.pack_auth st.auth_token cid name2 sys2) = (st2, cv2, o2)) :
    o1 = .accepted (Json.str cid) ∧ o2 = .accepted (Json.str cid) ∧
    server.countKey st2.clients (Json.str cid) = 1 ∧
    (∃ c2, server.dget st2.clients (Json.str cid) = some c2 ∧
      c2.writer = wid2 ∧ c2.name = Json.str name2) ∧
    cv1 = some (Json.str cid) ∧
    server.cleanup st2.clients cv1 = st.clients ∧
    server.dget (server.cleanup st2.clients cv1) (Json.str cid) = none := by
  rw [server.handle_first_auth_ok st peer1 wid1 t1 cid name1 sys1 st.auth_token hcid rfl]
    at hr1
  obtain ⟨h1s, h1c, h1o⟩ : _ = st1 ∧ some (Json.str cid) = cv1
      ∧ server.FirstOutcome.accepted (Json.str cid) = o1 := by
    injection hr1 with ha hb
    injection hb with hb hc
    exact ⟨ha, hb, hc⟩
  rw [server.handle_first_auth_ok st1 peer2 wid2 t2 cid name2 sys2 st.auth_token hcid
    (by rw [← h1s])] at hr2
  obtain ⟨h2s, h2c, h2o⟩ : _ = st2 ∧ some (Json.str cid) = cv2
      ∧ server.FirstOutcome.accepted (Json.str cid) = o2 := by
    injection hr2 with ha hb
    injection hb with hb hc
    exact ⟨ha, hb, hc⟩
  have hcl : st2.clients = st.clients ++ [(Json.str cid,
      server.ClientState.mk (Json.str cid) (Json.str name2) peer2 wid2 t2 (Json.obj []))] := by
    rw [← h2s, ← h1s]
    show server.dset (server.dset st.clients _ _) _ _ = _
    rw [server.dset_absent _ _ _ habs]
    exact server.dset_replace_end _ _ _ _ habs
  have htru : Json.pyTruthy (Json.str cid) = true := by
    simp [Json.pyTruthy, hcid]
  have hget : server.dget st2.clients (Json.str cid) = some
      (server.ClientState.mk (Json.str cid) (Json.str name2) peer2 wid2 t2 (Json.obj [])) := by
    rw [hcl, server.dget_append_none _ _ _ habs]
    simp [server.dget, Json.jeq_refl]
  have hclean : server.cleanup st2.clients cv1 = st.clients := by
    rw [← h1c]
    simp only [server.cleanup, htru, hget, Option.isSome_some, Bool.and_self, if_true]
    rw [hcl]
    exact server.dpop_append_end _ _ _ habs
  refine ⟨h1o.symm, h2o.symm, ?_, ?_, h1c.symm, hclean, ?_⟩
  · rw [hcl, server.countKey_append, server.countKey_none _ _ habs]
    simp [server.countKey, Json.jeq_refl]
  · exact ⟨_, hget, rfl, rfl⟩
  · rw [hclean]
    exact habs

/-- Witness for the amended claim C1 at a concrete pair of connections. -/
theorem C1_amended_identity_replace_witness :
    ['A'] ≠ ([] : List Char) ∧
    (server.FirstOutcome.accepted (Json.str ['A']) = .accepted (Json.str ['A']) ∧
     server.FirstOutcome.accepted (Json.str ['A']) = .accepted (Json.str ['A']) ∧
     server.countKey
       [(Json.str ['A'],
         server.ClientState.mk (Json.str ['A']) (Json.str ['q']) (['h'], 2) 2 20 (Json.obj []))]
       (Json.str ['A']) = 1 ∧
     (∃ c2, server.dget
       [(Json.str ['A'],
         server.ClientState.mk (Json.str ['A']) (Json.str ['q']) (['h'], 2) 2 20 (Json.obj []))]
       (Json.str ['A']) = some c2 ∧ c2.writer = 2 ∧ c2.name = Json.str ['q']) ∧
     some (Json.str ['A']) = some (Json.str ['A']) ∧
     server.cleanup
       [(Json.str ['A'],
         server.ClientState.mk (Json.str ['A']) (Json.str ['q']) (['h'], 2) 2 20 (Json.obj []))]
       (some (Json.str ['A'])) = [] ∧
     server.dget
       (server.cleanup
         [(Json.str ['A'],
           server.ClientState.mk (Json.str ['A']) (Json.str ['q']) (['h'], 2) 2 20 (Json.obj []))]
         (some (Json.str ['A']))) (Json.str ['A']) = none) := by
  refine ⟨by decide, ?_⟩
  exact C1_amended_identity_replace (server.ServerState.mk ['T'] [] [] false [])
    (server.ServerState.mk ['T']
      [(Json.str ['A'],
        server.ClientState.mk (Json.str ['A']) (Json.str ['p']) (['h'], 1) 1 10 (Json.obj []))]
      [] false [])
    (server.ServerState.mk ['T']
      [(Json.str ['A'],
        server.ClientState.mk (Json.str ['A']) (Json.str ['q']) (['h'], 2) 2 20 (Json.obj []))]
      [] false [])
    (some (Json.str ['A'])) (some (Json.str ['A']))
    (.accepted (Json.str ['A'])) (.accepted (Json.str ['A']))
    (['h'], 1) (['h'], 2) 1 2 10 20 ['A'] ['p'] ['q'] Json.null Json.null
    (by decide) rfl rfl rfl

/-- Claim C1 counterexample: with token `"T"`, client id `"A"`, a second
authenticated connection replaces the first's entry; when the first
connection then closes, its cleanup removes the second connection's
registry entry — the claim asserted it would survive. -/
theorem C1_counterexample :
    (server.handle_first (server.ServerState.mk ['T'] [] [] false [])
        (['h'], 1) 1 10 (agent.pack_auth ['T'] ['A'] ['p'] Json.null)).2.1
        = some (Json.str ['A']) ∧
    server.dget
      (server.cleanup
        (server.handle_first
          (server.handle_first (server.ServerState.mk ['T'] [] [] false [])
            (['h'], 1) 1 10 (agent.pack_auth ['T'] ['A'] ['p'] Json.null)).1
          (['h'], 2) 2 20 (agent.pack_auth ['T'] ['A'] ['q'] Json.null)).1.clients
        (server.handle_first (server.ServerState.mk ['T'] [] [] false [])
          (['h'], 1) 1 10 (agent.pack_auth ['T'] ['A'] ['p'] Json.null)).2.1)
      (Json.str ['A']) = none := by
  constructor <;> rfl

/-- Claim C2 (amended): after handshake, a line that fails to decode is
dropped — and reading continues — on the agent's receive loop only; on
the server connection handler's active loop the `loads` call sits inside
the handler's single `try`, so a decode failure raises, ends the loop,
and the connection is closed. -/
theorem C2_amended_decode_failure (pv : agent.Providers) (line : List Char)
    (st : server.ServerState) (cid : Json) (now : Nat)
    (h : protocol.loads line = none) :
    agent.recv_line pv line = .skip ∧
    server.active_line st cid now line = (st, false) := by
  constructor
  · simp [agent.recv_line, h]
  · simp [server.active_line, h]

/-- Witness for the amended claim C2 at the undecodable line `"x"`. -/
theorem C2_amended_decode_failure_witness :
    protocol.loads ['x'] = none ∧
    (agent.recv_line (agent.Providers.mk Json.null Json.null Json.null Json.null) ['x']
        = .skip ∧
      server.active_line (server.ServerState.mk [] [] [] false []) (Json.str ['A']) 5 ['x']
        = (server.ServerState.mk [] [] [] false [], false)) :=
  ⟨rfl, C2_amended_decode_failure
    (agent.Providers.mk Json.null Json.null Json.null Json.null) ['x']
    (server.ServerState.mk [] [] [] false []) (Json.str ['A']) 5 rfl⟩

/-- Claim C2 counterexample: `"x"` fails to decode, and the server
connection handler's active loop TERMINATES on it (the continue flag is
false) — the claim asserted a decode failure after handshake never
terminates the connection on the server side. -/
theorem C2_counterexample :
    protocol.loads ['x'] = none ∧
    (server.active_line (server.ServerState.mk [] [] [] false [])
      (Json.str ['A']) 5 ['x']).2 = false := by
  constructor <;> rfl

/-- Claim C3 (amended): `list_clients` returns one row per registered
client — its id, name, formatted address, age since `last_seen` and
`last_metrics` — in the registry's dict-iteration (insertion) order,
index for index; the rows are not sorted by recency of contact. -/
theorem C3_amended_list_clients (st : server.ServerState) (now : Nat) :
    (server.list_clients st now).length = st.clients.length ∧
    ∀ i : Nat, (server.list_clients st now)[i]? = (st.clients[i]?).map (fun p =>
      (p.1, p.2.name, server.addrFormat p.2.addr, now - p.2.last_seen, p.2.last_metrics)) := by
  constructor
  · simp [server.list_clients]
  · intro i
    simp [server.list_clients]

/-- Claim C3 counterexample: a registry holding clients registered in the
order A (last seen 10), B (last seen 20), C (last seen 15) at time 30
yields rows with ages 20, 10, 15 — ordered neither most-recent-first
nor most-recent-last, so the rows are not ordered by recency of
contact as the claim states. -/
theorem C3_counterexample :
    server.agesNondecreasing (server.list_clients (server.ServerState.mk ['T']
      [(Json.str ['A'],
        server.ClientState.mk (Json.str ['A']) (Json.str ['a']) (['h'], 1) 1 10 (Json.obj [])),
       (Json.str ['B'],
        server.ClientState.mk (Json.str ['B']) (Json.str ['b']) (['h'], 2) 2 20 (Json.obj [])),
       (Json.str ['C'],
        server.ClientState.mk (Json.str ['C']) (Json.str ['c']) (['h'], 3) 3 15 (Json.obj []))]
      [] false []) 30) = false ∧
    server.agesNonincreasing (server.list_clients (server.ServerState.mk ['T']
      [(Json.str ['A'],
        server.ClientState.mk (Json.str ['A']) (Json.str ['a']) (['h'], 1) 1 10 (Json.obj [])),
       (Json.str ['B'],
        server.ClientState.mk (Json.str ['B']) (Json.str ['b']) (['h'], 2) 2 20 (Json.obj [])),
       (Json.str ['C'],
        server.ClientState.mk (Json.str ['C']) (Json.str ['c']) (['h'], 3) 3 15 (Json.obj []))]
      [] false []) 30) = false := by
  constructor <;> rfl

/-- Claim C4 (amended): from `Disconnected`, three consecutive connection
failures sleep 0.5 s, 1.0 s, 2.0 s (exponential, factor 2, base 0.5 s,
cap 15 s; delays here in tenths of a second).  The backoff resets to the
base only after a session that ends without raising (`run_agent_once`
returns normally); a session that reached `Active` but ends with a
raised error sleeps the current backoff and doubles it, up to the cap. -/
theorem C4_amended_backoff :
    agent.reconnectDelays agent.RECONNECT_BASE_S
      [.connectFail, .connectFail, .connectFail] = [5, 10, 20] ∧
    (∀ (b : Nat) (os : List agent.TrialOutcome),
      agent.reconnectDelays b (.activeClean :: os)
        = agent.RECONNECT_BASE_S :: agent.reconnectDelays agent.RECONNECT_BASE_S os) ∧
    (∀ (b : Nat) (os : List agent.TrialOutcome),
      agent.reconnectDelays b (.activeError :: os)
        = b :: agent.reconnectDelays (min agent.RECONNECT_MAX_S (b * 2)) os) ∧
    (∀ (b : Nat) (os : List agent.TrialOutcome),
      agent.reconnectDelays b (.connectFail :: os)
        = b :: agent.reconnectDelays (min agent.RECONNECT_MAX_S (b * 2)) os) := by
  refine ⟨rfl, ?_, ?_, ?_⟩ <;>
    (intro b os; simp [agent.reconnectDelays, agent.backoffStep, agent.trialRaises])

/-- Claim C4 counterexample: after two connection failures the backoff is
2.0 s; a third trial reaches `Active` but ends with a raised error, and
the sleep after it is 2.0 s (20 tenths), not the base 0.5 s — the claim
asserted the delay after any session that reached `Active` is reset to
the base regardless of how the session ended. -/
theorem C4_counterexample :
    agent.reconnectDelays agent.RECONNECT_BASE_S
      [.connectFail, .connectFail, .activeError] = [5, 10, 20] ∧
    agent.reachedActive .activeError = true ∧
    (20 : Nat) ≠ agent.RECONNECT_BASE_S := by
  refine ⟨rfl, rfl, by decide⟩

/-- A positive string test pins the JSON value down to that string. -/
theorem Json.jIsStr_eq (j : Json) (s : List Char) (h : Json.jIsStr j s = true) :
    j = Json.str s := by
  cases j <;> simp [Json.jIsStr] at h
  rw [h]

/-- Claim C5: a new connection whose first (decoded) frame is not an `auth`
message, or is an `auth` whose token differs from the configured shared
token, or is an `auth` with a missing or empty `client_id`, is rejected:
the server replies with an `error` frame, closes the connection, and the
registry — indeed the whole server state — is unchanged. -/
theorem C5_auth_gate (st : server.ServerState) (peer : List Char × Nat) (wid now : Nat)
    (kvs : List (List Char × Json))
    (h : Json.jIsStr (Json.pyGet (Json.obj kvs) "type".data) "auth".data = false ∨
      (Json.isObj (Json.pyGetD (Json.obj kvs) "payload".data (Json.obj [])) = true ∧
        Json.pyGetD (Json.pyGetD (Json.obj kvs) "payload".data (Json.obj [])) "token".data
          (Json.str []) ≠ Json.str st.auth_token) ∨
      (Json.isObj (Json.pyGetD (Json.obj kvs) "payload".data (Json.obj [])) = true ∧
        Json.pyTruthy (Json.pyGetD (Json.pyGetD (Json.obj kvs) "payload".data (Json.obj []))
          "client_id".data (Json.str [])) = false)) :
    ∃ reason cv, server.handle_first st peer wid now (Json.obj kvs)
      = (st, cv, .errorClose reason) := by
  by_cases hgate : (!(Json.jIsStr (Json.pyGet (Json.obj kvs) ['v']) protocol.PROTOCOL_VERSION)
      || !(Json.jIsStr (Json.pyGet (Json.obj kvs) "type".data) "auth".data)) = true
  · exact ⟨"expected auth".data, none, by simp [server.handle_first, hgate]⟩
  · simp only [Bool.or_eq_true, Bool.not_eq_true', Bool.not_eq_false] at hgate
    push_neg at hgate
    have hver : Json.jIsStr (Json.pyGet (Json.obj kvs) ['v']) protocol.PROTOCOL_VERSION
        = true := by
      cases hc : Json.jIsStr (Json.pyGet (Json.obj kvs) ['v']) protocol.PROTOCOL_VERSION
      · exact absurd hc hgate.1
      · rfl
    have htyp : Json.jIsStr (Json.pyGet (Json.obj kvs) "type".data) "auth".data = true := by
      cases hc : Json.jIsStr (Json.pyGet (Json.obj kvs) "type".data) "auth".data
      · exact absurd hc hgate.2
      · rfl
    rcases h with h | ⟨hobj, htok⟩ | ⟨hobj, hcid⟩
    · rw [htyp] at h
      cases h
    · obtain ⟨plkvs, hpl⟩ : ∃ plkvs,
          Json.pyGetD (Json.obj kvs) "payload".data (Json.obj []) = Json.obj plkvs := by
        cases hc : Json.pyGetD (Json.obj kvs) "payload".data (Json.obj []) <;>
          rw [hc] at hobj <;> simp [Json.isObj] at hobj
        exact ⟨_, rfl⟩
      rw [hpl] at htok
      have hjeq : Json.jeq (Json.pyGetD (Json.obj plkvs) "token".data (Json.str []))
          (Json.str st.auth_token) = false := by
        cases hc : Json.jeq (Json.pyGetD (Json.obj plkvs) "token".data (Json.str []))
            (Json.str st.auth_token)
        · rfl
        · exact absurd (Json.jeq_eq _ _ hc) htok
      refine ⟨"bad token".data, none, ?_⟩
      simp [server.handle_first, hver, htyp, hpl, hjeq]
    · obtain ⟨plkvs, hpl⟩ : ∃ plkvs,
          Json.pyGetD (Json.obj kvs) "payload".data (Json.obj []) = Json.obj plkvs := by
        cases hc : Json.pyGetD (Json.obj kvs) "payload".data (Json.obj []) <;>
          rw [hc] at hobj <;> simp [Json.isObj] at hobj
        exact ⟨_, rfl⟩
      rw [hpl] at hcid
      by_cases hjeq : Json.jeq (Json.pyGetD (Json.obj plkvs) "token".data (Json.str []))
          (Json.str st.auth_token) = true
      · refine ⟨"missing client_id".data, some (Json.pyGetD (Json.obj plkvs)
          "client_id".data (Json.str [])), ?_⟩
        simp [server.handle_first, hver, htyp, hpl, hjeq, hcid]
      · have hjeq2 : Json.jeq (Json.pyGetD (Json.obj plkvs) "token".data (Json.str []))
            (Json.str st.auth_token) = false := by
          cases hc : Json.jeq (Json.pyGetD (Json.obj plkvs) "token".data (Json.str []))
              (Json.str st.auth_token)
          · rfl
          · exact absurd hc hjeq
        refine ⟨"bad token".data, none, ?_⟩
        simp [server.handle_first, hver, htyp, hpl, hjeq2]

/-- Witness for claim C5: token `"WRONG"` against configured `"T1"` on an
otherwise well-formed `auth` frame is rejected with an `error` and the
server state (hence the registry) is unchanged. -/
theorem C5_auth_gate_witness :
    ∃ reason cv, server.handle_first (server.ServerState.mk "T1".data [] [] false [])
      (['h'], 1) 7 99
      (Json.obj [(['v'], Json.str protocol.PROTOCOL_VERSION),
        ("type".data, Json.str "auth".data),
        ("payload".data, Json.obj [("token".data, Json.str "WRONG".data),
          ("client_id".data, Json.str ['A'])])])
      = (server.ServerState.mk "T1".data [] [] false [], cv, .errorClose reason) :=
  C5_auth_gate (server.ServerState.mk "T1".data [] [] false []) (['h'], 1) 7 99
    [(['v'], Json.str protocol.PROTOCOL_VERSION),
     ("type".data, Json.str "auth".data),
     ("payload".data, Json.obj [("token".data, Json.str "WRONG".data),
       ("client_id".data, Json.str ['A'])])]
    (Or.inr (Or.inl ⟨by rfl, by
      intro hcon
      injection hcon with hc
      exact absurd hc (by decide)⟩))

/-- Claim C7: an inbound `request` whose `req_type` string is none of the
known types (`sysinfo`, `processes`, `netstat`) is not dropped: the
agent writes back a `response` carrying the same `request_id`, with
payload `{"error": "unknown req_type: <req_type>"}`. -/
theorem C7_unknown_req_type (pv : agent.Providers) (kvs : List (List Char × Json))
    (plkvs : List (List Char × Json)) (s : List Char)
    (htype : Json.jIsStr (Json.pyGet (Json.obj kvs) "type".data) "request".data = true)
    (hpl : (if Json.pyTruthy (Json.pyGet (Json.obj kvs) "payload".data)
        then Json.pyGet (Json.obj kvs) "payload".data else Json.obj []) = Json.obj plkvs)
    (hrt : Json.pyGet (Json.obj plkvs) "req_type".data = Json.str s)
    (h1 : s ≠ "sysinfo".data) (h2 : s ≠ "processes".data) (h3 : s ≠ "netstat".data) :
    agent.recv_msg pv (Json.obj kvs) = .reply (agent.pack_response
      (Json.pyGet (Json.obj kvs) "request_id".data)
      (Json.obj [("error".data, Json.str ("unknown req_type: ".data ++ s))])) := by
  have hj1 : Json.jeq (Json.str s) (Json.str "sysinfo".data) = false := by
    cases hc : Json.jeq (Json.str s) (Json.str "sysinfo".data)
    · rfl
    · have := Json.jeq_eq _ _ hc
      injection this with hcc
      exact absurd hcc h1
  have hj2 : Json.jeq (Json.str s) (Json.str "processes".data) = false := by
    cases hc : Json.jeq (Json.str s) (Json.str "processes".data)
    · rfl
    · have := Json.jeq_eq _ _ hc
      injection this with hcc
      exact absurd hcc h2
  have hj3 : Json.jeq (Json.str s) (Json.str "netstat".data) = false := by
    cases hc : Json.jeq (Json.str s) (Json.str "netstat".data)
    · rfl
    · have := Json.jeq_eq _ _ hc
      injection this with hcc
      exact absurd hcc h3
  simp [agent.recv_msg, htype, hpl, hrt, hj1, hj2, hj3, Json.pyStr]

/-- Witness for claim C7: `req_type "bogus"` yields a `response` with the
same `request_id` `"r9"` and payload
`{"error": "unknown req_type: bogus"}`. -/
theorem C7_unknown_req_type_witness :
    agent.recv_msg (agent.Providers.mk Json.null Json.null Json.null Json.null)
      (Json.obj [(['v'], Json.str protocol.PROTOCOL_VERSION),
        ("type".data, Json.str "request".data),
        ("request_id".data, Json.str "r9".data),
        ("payload".data, Json.obj [("req_type".data, Json.str "bogus".data),
          ("data".data, Json.obj [])])])
      = .reply (agent.pack_response (Json.str "r9".data)
          (Json.obj [("error".data, Json.str "unknown req_type: bogus".data)])) := by
  have h := C7_unknown_req_type
    (agent.Providers.mk Json.null Json.null Json.null Json.null)
    [(['v'], Json.str protocol.PROTOCOL_VERSION),
     ("type".data, Json.str "request".data),
     ("request_id".data, Json.str "r9".data),
     ("payload".data, Json.obj [("req_type".data, Json.str "bogus".data),
       ("data".data, Json.obj [])])]
    [("req_type".data, Json.str "bogus".data), ("data".data, Json.obj [])]
    "bogus".data rfl rfl rfl (by decide) (by decide) (by decide)
  exact h

/-- Claim C9: `send_request` on an absent `client_id` fails with the
`ClientNotFound` error (`ValueError("client not found")`) returned to
the caller; on a registered client it writes exactly one `request` frame
— carrying the given `request_id` and `req_type` — to that client's
connection, and returns without reading any reply. -/
theorem C9_send_request (st : server.ServerState)
    (client_id req_type request_id : List Char) (payload : Json) :
    (server.dget st.clients (Json.str client_id) = none →
      server.send_request st client_id req_type request_id payload
        = .error "client not found".data) ∧
    (∀ c, server.dget st.clients (Json.str client_id) = some c →
      server.send_request st client_id req_type request_id payload
        = .ok (c.writer,
            Json.obj [(['v'], Json.str protocol.PROTOCOL_VERSION),
              ("type".data, Json.str "request".data),
              ("request_id".data, Json.str request_id),
              ("payload".data, Json.obj [("req_type".data, Json.str req_type),
                                         ("data".data, payload)])])) := by
  constructor
  · intro h
    simp [server.send_request, h]
  · intro c h
    simp [server.send_request, h]

/-- Witness for claim C9: an empty registry rejects `send_request` to
`"A"` with the ClientNotFound error, and a registry holding `"A"` (on
writer 3) accepts it, emitting the single request frame with
request id `"r1"`. -/
theorem C9_send_request_witness :
    (server.send_request (server.ServerState.mk ['T'] [] [] false [])
      ['A'] "sysinfo".data "r1".data (Json.obj [])
      = .error "client not found".data) ∧
    (server.send_request (server.ServerState.mk ['T']
        [(Json.str ['A'],
          server.ClientState.mk (Json.str ['A']) (Json.str ['a']) (['h'], 1) 3 10
            (Json.obj []))] [] false [])
      ['A'] "sysinfo".data "r1".data (Json.obj [])
      = .ok (3, Json.obj [(['v'], Json.str protocol.PROTOCOL_VERSION),
          ("type".data, Json.str "request".data),
          ("request_id".data, Json.str "r1".data),
          ("payload".data, Json.obj [("req_type".data, Json.str "sysinfo".data),
                                     ("data".data, Json.obj [])])])) := by
  constructor
  · exact (C9_send_request (server.ServerState.mk ['T'] [] [] false [])
      ['A'] "sysinfo".data "r1".data (Json.obj [])).1 rfl
  · exact (C9_send_request (server.ServerState.mk ['T']
      [(Json.str ['A'],
        server.ClientState.mk (Json.str ['A']) (Json.str ['a']) (['h'], 1) 3 10
          (Json.obj []))] [] false [])
      ['A'] "sysinfo".data "r1".data (Json.obj [])).2
      (server.ClientState.mk (Json.str ['A']) (Json.str ['a']) (['h'], 1) 3 10 (Json.obj []))
      (by rfl)

/-- Claim C10: on an inbound `response` frame (with an observer registered,
and a `request_id` that is either missing or a string), the observer
callback is invoked exactly once — receiving the `request_id` as-is,
`None` when missing — while the pending-response map is updated only
when the `request_id` is present and non-empty; otherwise it is left
unchanged. -/
theorem C10_response_observer (st : server.ServerState) (cid : Json) (now : Nat)
    (kvs : List (List Char × Json))
    (hobs : st.hasObserver = true)
    (htype : Json.jIsStr (Json.pyGet (Json.obj kvs) "type".data) "response".data = true)
    (hrid : Json.pyGet (Json.obj kvs) "request_id".data = Json.null ∨
      ∃ r, Json.pyGet (Json.obj kvs) "request_id".data = Json.str r) :
    (server.active_msg st cid now (Json.obj kvs)).2 = true ∧
    (server.active_msg st cid now (Json.obj kvs)).1.obsCalls
      = st.obsCalls ++ [(cid, Json.pyGet (Json.obj kvs) "request_id".data,
          Json.pyGetD (Json.obj kvs) "payload".data (Json.obj []))] ∧
    (Json.pyTruthy (Json.pyGet (Json.obj kvs) "request_id".data) = false →
      (server.active_msg st cid now (Json.obj kvs)).1.last_responses = st.last_responses) ∧
    (Json.pyTruthy (Json.pyGet (Json.obj kvs) "request_id".data) = true →
      (server.active_msg st cid now (Json.obj kvs)).1.last_responses
        = server.dset st.last_responses (Json.pyGet (Json.obj kvs) "request_id".data)
            (server.PendingResponse.mk cid
              (Json.pyGetD (Json.obj kvs) "payload".data (Json.obj [])) now)) := by
  have hty := Json.jIsStr_eq _ _ htype
  have hmet : Json.jIsStr (Json.pyGet (Json.obj kvs) "type".data) "metrics".data = false := by
    rw [hty]
    decide
  rcases hrid with hrid | ⟨r, hrid⟩
  · cases hreg : server.dget st.clients cid with
    | none =>
        refine ⟨?_, ?_, ?_, ?_⟩ <;>
          simp [server.active_msg, hmet, htype, hreg, hrid, hobs, server.notifyObserver,
            Json.pyTruthy]
    | some c =>
        refine ⟨?_, ?_, ?_, ?_⟩ <;>
          simp [server.active_msg, hmet, htype, hreg, hrid, hobs, server.notifyObserver,
            Json.pyTruthy]
  · by_cases hre : r = []
    · subst hre
      cases hreg : server.dget st.clients cid with
      | none =>
          refine ⟨?_, ?_, ?_, ?_⟩ <;>
            simp [server.active_msg, hmet, htype, hreg, hrid, hobs, server.notifyObserver,
              Json.pyTruthy]
      | some c =>
          refine ⟨?_, ?_, ?_, ?_⟩ <;>
            simp [server.active_msg, hmet, htype, hreg, hrid, hobs, server.notifyObserver,
              Json.pyTruthy]
    · have htru : Json.pyTruthy (Json.str r) = true := by
        simp [Json.pyTruthy, hre]
      cases hreg : server.dget st.clients cid with
      | none =>
          refine ⟨?_, ?_, ?_, ?_⟩ <;>
            simp [server.active_msg, hmet, htype, hreg, hrid, hobs, server.notifyObserver,
              htru, Json.isHashable]
      | some c =>
          refine ⟨?_, ?_, ?_, ?_⟩ <;>
            simp [server.active_msg, hmet, htype, hreg, hrid, hobs, server.notifyObserver,
              htru, Json.isHashable]

/-- Witness for claim C10 on a concrete `response` frame with a missing
`request_id`: the observer is called exactly once with `None` and the
pending-response map is unchanged (and, with `request_id` `"r1"`, the
map gains exactly that key). -/
theorem C10_response_observer_witness :
    ((server.active_msg (server.ServerState.mk ['T'] [] [] true []) (Json.str ['A']) 9
        (Json.obj [("type".data, Json.str "response".data),
          ("payload".data, Json.obj [("ok".data, Json.bool true)])])).2 = true ∧
      (server.active_msg (server.ServerState.mk ['T'] [] [] true []) (Json.str ['A']) 9
        (Json.obj [("type".data, Json.str "response".data),
          ("payload".data, Json.obj [("ok".data, Json.bool true)])])).1.obsCalls
        = [] ++ [(Json.str ['A'], Json.null, Json.obj [("ok".data, Json.bool true)])] ∧
      (Json.pyTruthy Json.null = false →
        (server.active_msg (server.ServerState.mk ['T'] [] [] true []) (Json.str ['A']) 9
          (Json.obj [("type".data, Json.str "response".data),
            ("payload".data, Json.obj [("ok".data, Json.bool true)])])).1.last_responses
          = []) ∧
      (Json.pyTruthy Json.null = true →
        (server.active_msg (server.ServerState.mk ['T'] [] [] true []) (Json.str ['A']) 9
          (Json.obj [("type".data, Json.str "response".data),
            ("payload".data, Json.obj [("ok".data, Json.bool true)])])).1.last_responses
          = server.dset [] Json.null
              (server.PendingResponse.mk (Json.str ['A'])
                (Json.obj [("ok".data, Json.bool true)]) 9))) := by
  have h := C10_response_observer (server.ServerState.mk ['T'] [] [] true [])
    (Json.str ['A']) 9
    [("type".data, Json.str "response".data),
     ("payload".data, Json.obj [("ok".data, Json.bool true)])]
    rfl rfl (Or.inl rfl)
  exact h

namespace server

/-- One `Active`-loop iteration on a decoded dict frame: the registry entry
of the connection's client gets `last_seen := now`; its `last_metrics`
becomes the frame's payload exactly when the frame is a `metrics`
message, and is untouched otherwise. -/
theorem active_msg_step (st : ServerState) (cid : Json) (now : Nat) (m : Json)
    (c : ClientState) (hreg : dget st.clients cid = some c)
    (hobj : Json.isObj m = true) :
    ∃ c2, dget (active_msg st cid now m).1.clients cid = some c2 ∧
      c2.last_seen = now ∧
      c2.last_metrics = (if Json.jIsStr (Json.pyGet m "type".data) "metrics".data
        then Json.pyGetD m "payload".data (Json.obj []) else c.last_metrics) := by
  obtain ⟨kvs, rfl⟩ : ∃ kvs, m = Json.obj kvs := by
    cases m <;> simp [Json.isObj] at hobj
    exact ⟨_, rfl⟩
  by_cases hmet : Json.jIsStr (Json.pyGet (Json.obj kvs) "type".data) "metrics".data = true
  · refine ⟨ClientState.mk c.client_id c.name c.addr c.writer now
        (Json.pyGetD (Json.obj kvs) "payload".data (Json.obj [])), ?_, rfl, by simp [hmet]⟩
    simp [active_msg, hreg, hmet, dget_dset_self]
  · have hmet2 : Json.jIsStr (Json.pyGet (Json.obj kvs) "type".data) "metrics".data
        = false := by
      cases hc : Json.jIsStr (Json.pyGet (Json.obj kvs) "type".data) "metrics".data
      · rfl
      · exact absurd hc hmet
    refine ⟨ClientState.mk c.client_id c.name c.addr c.writer now c.last_metrics,
      ?_, rfl, by simp [hmet2]⟩
    by_cases hresp : Json.jIsStr (Json.pyGet (Json.obj kvs) "type".data) "response".data
        = true
    · by_cases htru : Json.pyTruthy (Json.pyGet (Json.obj kvs) "request_id".data) = true
      · by_cases hh : Json.isHashable (Json.pyGet (Json.obj kvs) "request_id".data) = true
        · simp [active_msg, hreg, hmet2, hresp, htru, hh, notifyObserver, dget_dset_self]
          split <;> simp [dget_dset_self]
        · simp only [Bool.not_eq_true] at hh
          simp [active_msg, hreg, hmet2, hresp, htru, hh, dget_dset_self]
      · simp only [Bool.not_eq_true] at htru
        simp [active_msg, hreg, hmet2, hresp, htru, notifyObserver, dget_dset_self]
        split <;> simp [dget_dset_self]
    · have hresp2 : Json.jIsStr (Json.pyGet (Json.obj kvs) "type".data) "response".data
          = false := by
        cases hc : Json.jIsStr (Json.pyGet (Json.obj kvs) "type".data) "response".data
        · rfl
        · exact absurd hc hresp
      simp [active_msg, hreg, hmet2, hresp2, dget_dset_self]

/-- A frame satisfying `frameOk` never ends the `Active` loop. -/
theorem active_msg_continue (st : ServerState) (cid : Json) (now : Nat) (m : Json)
    (hok : frameOk m = true) : (active_msg st cid now m).2 = true := by
  simp only [frameOk, Bool.and_eq_true, Bool.or_eq_true, Bool.not_eq_true'] at hok
  obtain ⟨hobj, hrest⟩ := hok
  obtain ⟨kvs, rfl⟩ : ∃ kvs, m = Json.obj kvs := by
    cases m <;> simp [Json.isObj] at hobj
    exact ⟨_, rfl⟩
  by_cases hmet : Json.jIsStr (Json.pyGet (Json.obj kvs) "type".data) "metrics".data = true
  · cases hreg : dget st.clients cid with
    | none => simp [active_msg, hreg, hmet]
    | some c => simp [active_msg, hreg, hmet, dget_dset_self]
  · have hmet2 : Json.jIsStr (Json.pyGet (Json.obj kvs) "type".data) "metrics".data
        = false := by
      cases hc : Json.jIsStr (Json.pyGet (Json.obj kvs) "type".data) "metrics".data
      · rfl
      · exact absurd hc hmet
    by_cases hresp : Json.jIsStr (Json.pyGet (Json.obj kvs) "type".data) "response".data
        = true
    · rcases hrest with (hr | hr) | hr
      · rw [hresp] at hr
        cases hr
      · cases hreg : dget st.clients cid <;>
          simp [active_msg, hreg, hmet2, hresp, hr, notifyObserver]
      · by_cases htru : Json.pyTruthy (Json.pyGet (Json.obj kvs) "request_id".data) = true
        · cases hreg : dget st.clients cid <;>
            simp [active_msg, hreg, hmet2, hresp, htru, hr, notifyObserver]
        · simp only [Bool.not_eq_true] at htru
          cases hreg : dget st.clients cid <;>
            simp [active_msg, hreg, hmet2, hresp, htru, notifyObserver]
    · have hresp2 : Json.jIsStr (Json.pyGet (Json.obj kvs) "type".data) "response".data
          = false := by
        cases hc : Json.jIsStr (Json.pyGet (Json.obj kvs) "type".data) "response".data
        · rfl
        · exact absurd hc hresp
      cases hreg : dget st.clients cid <;>
        simp [active_msg, hreg, hmet2, hresp2]

/-- Running the `Active` loop over well-formed frames, the registered
client's `last_metrics` ends as the payload of the most recent `metrics`
frame (or its initial value when the run held none). -/
theorem runActive_lastMetrics (cid : Json) (msgs : List (Nat × Json)) :
    ∀ (st : ServerState) (c : ClientState), dget st.clients cid = some c →
      (∀ m ∈ msgs, frameOk m.2 = true) →
      ∃ c3, dget (runActiveMsgs st cid msgs).clients cid = some c3 ∧
        c3.last_metrics = lastMetricsSpec c.last_metrics msgs := by
  induction msgs with
  | nil =>
      intro st c hreg _
      exact ⟨c, hreg, by simp [lastMetricsSpec]⟩
  | cons hd rest ih =>
      obtain ⟨t, m⟩ := hd
      intro st c hreg hok
      have hokm : frameOk m = true := hok (t, m) (by simp)
      have hobj : Json.isObj m = true := by
        simp only [frameOk, Bool.and_eq_true] at hokm
        exact hokm.1
      have hcont := active_msg_continue st cid t m hokm
      obtain ⟨c2, hc2, _, hmetr⟩ := active_msg_step st cid t m c hreg hobj
      have hrun : runActiveMsgs st cid ((t, m) :: rest)
          = runActiveMsgs (active_msg st cid t m).1 cid rest := by
        simp [runActiveMsgs, hcont]
      rw [hrun]
      obtain ⟨c3, hc3, hlast⟩ := ih (active_msg st cid t m).1 c2 hc2
        (fun x hx => hok x (by simp [hx]))
      refine ⟨c3, hc3, ?_⟩
      rw [hlast, hmetr]
      by_cases hmt : Json.jIsStr (Json.pyGet m "type".data) "metrics".data = true
      · simp [lastMetricsSpec, hmt]
      · simp [lastMetricsSpec, hmt]

end server

/-- Claim C8: for a registered client in the server's `Active` state,
`last_seen` is refreshed on every decoded inbound frame of every type
(including `heartbeat`), and after any run of well-formed frames
`last_metrics` equals exactly the payload of the most recent `metrics`
frame — wholesale replacement, never a merge — while non-`metrics`
frames leave it unchanged. -/
theorem C8_liveness_accounting (st : server.ServerState) (cid : Json)
    (c : server.ClientState) (msgs : List (Nat × Json))
    (hreg : server.dget st.clients cid = some c)
    (hok : ∀ m ∈ msgs, server.frameOk m.2 = true) :
    (∀ (now : Nat) (m : Json), Json.isObj m = true →
      ∃ c2, server.dget (server.active_msg st cid now m).1.clients cid = some c2 ∧
        c2.last_seen = now ∧
        c2.last_metrics = (if Json.jIsStr (Json.pyGet m "type".data) "metrics".data
          then Json.pyGetD m "payload".data (Json.obj []) else c.last_metrics)) ∧
    (∃ c3, server.dget (server.runActiveMsgs st cid msgs).clients cid = some c3 ∧
      c3.last_metrics = server.lastMetricsSpec c.last_metrics msgs) := by
  constructor
  · intro now m hobj
    exact server.active_msg_step st cid now m c hreg hobj
  · exact server.runActive_lastMetrics cid msgs st c hreg hok

/-- Witness for claim C8: client `"A"` (empty initial metrics) receives a
heartbeat and then two metrics frames; the final `last_metrics` is
exactly the second metrics payload. -/
theorem C8_liveness_accounting_witness :
    (∃ c3, server.dget
      (server.runActiveMsgs
        (server.ServerState.mk ['T']
          [(Json.str ['A'],
            server.ClientState.mk (Json.str ['A']) (Json.str ['a']) (['h'], 1) 1 0
              (Json.obj []))] [] false [])
        (Json.str ['A'])
        [(1, Json.obj [("type".data, Json.str "heartbeat".data),
            ("payload".data, Json.obj [("t".data, Json.num 1)])]),
         (2, Json.obj [("type".data, Json.str "metrics".data),
            ("payload".data, Json.obj [("cpu_percent".data, Json.num 10)])]),
         (3, Json.obj [("type".data, Json.str "metrics".data),
            ("payload".data, Json.obj [("cpu_percent".data, Json.num 20)])])]).clients
      (Json.str ['A']) = some c3 ∧
      c3.last_metrics = server.lastMetricsSpec (Json.obj [])
        [(1, Json.obj [("type".data, Json.str "heartbeat".data),
            ("payload".data, Json.obj [("t".data, Json.num 1)])]),
         (2, Json.obj [("type".data, Json.str "metrics".data),
            ("payload".data, Json.obj [("cpu_percent".data, Json.num 10)])]),
         (3, Json.obj [("type".data, Json.str "metrics".data),
            ("payload".data, Json.obj [("cpu_percent".data, Json.num 20)])])]) ∧
    server.lastMetricsSpec (Json.obj [])
      [(1, Json.obj [("type".data, Json.str "heartbeat".data),
          ("payload".data, Json.obj [("t".data, Json.num 1)])]),
       (2, Json.obj [("type".data, Json.str "metrics".data),
          ("payload".data, Json.obj [("cpu_percent".data, Json.num 10)])]),
       (3, Json.obj [("type".data, Json.str "metrics".data),
          ("payload".data, Json.obj [("cpu_percent".data, Json.num 20)])])]
      = Json.obj [("cpu_percent".data, Json.num 20)] :=
  ⟨(C8_liveness_accounting
      (server.ServerState.mk ['T']
        [(Json.str ['A'],
          server.ClientState.mk (Json.str ['A']) (Json.str ['a']) (['h'], 1) 1 0
            (Json.obj []))] [] false [])
      (Json.str ['A'])
      (server.ClientState.mk (Json.str ['A']) (Json.str ['a']) (['h'], 1) 1 0 (Json.obj []))
      [(1, Json.obj [("type".data, Json.str "heartbeat".data),
          ("payload".data, Json.obj [("t".data, Json.num 1)])]),
       (2, Json.obj [("type".data, Json.str "metrics".data),
          ("payload".data, Json.obj [("cpu_percent".data, Json.num 10)])]),
       (3, Json.obj [("type".data, Json.str "metrics".data),
          ("payload".data, Json.obj [("cpu_percent".data, Json.num 20)])])]
      rfl (by decide)).2, rfl⟩
